import Mathlib

/-!
Crypton client core, `client/src/core.js`.

A shallow embedding of the protocol logic of the Crypton client: the randomness gate
(`randomBytes`), the constant-time comparator (`constEqual`), the version gate
(`versionCheck`), account provisioning (`generateAccount`) and the two login paths
(`login`, `loginWithStorage`) behind `authorize`.

JavaScript values are modelled by `JSVal`.  The external collaborators (SJCL, the SRP client,
the transport, the worker, `sessionStorage`, `Account`/`Session`/`Peer` methods) are the fields
of `Env`; every call of one of them is recorded as an `Event`, in program order.  A
continuation-passing function is embedded in direct style: its result is the argument list its
callback receives, or the exception it throws.  An object the code creates (`new
crypton.Account()`, an object literal) starts with the own properties the code gives it and
no other.
-/

namespace Crypton

/-! ## JavaScript values -/

/-- A UTF-16 code unit, the value `charCodeAt` returns. -/
abbrev CodeUnit := Fin 65536

/-- A JavaScript string: the sequence of its code units. -/
abbrev JSString := List CodeUnit

/-- The code units of an ASCII literal of the source. -/
def js (s : String) : JSString := s.toList.map (fun c => Fin.ofNat c.toNat)

/-- A JavaScript Number.  Finite values are carried exactly (every finite double is a
rational); `finite 0` is `+0`. -/
inductive JSNum
  | nan
  | posInf
  | negInf
  | negZero
  | finite (q : ℚ)
  deriving DecidableEq

/-- The kind of an object: it decides `typeof` (`callable` gives `function`). -/
inductive ObjClass
  | plain
  | array
  | callable
  deriving DecidableEq

/-- A JavaScript value.  An object is its list of own properties, in insertion order; an
array is an object whose properties are its indices. -/
inductive JSVal
  | undefined
  | null
  | bool (b : Bool)
  | num (n : JSNum)
  | str (s : JSString)
  | obj (cls : ObjClass) (props : List (String × JSVal))

instance : Inhabited JSVal := ⟨JSVal.undefined⟩

/-- An exception thrown by the code: a `TypeError` of the runtime or `new Error(msg)`. -/
inductive Thrown
  | typeError
  | error (msg : String)
  deriving DecidableEq

namespace JSVal

/-- The value of `ToBoolean(v)`, which `!v`, `v || w` and `if (v)` test. -/
def truthy : JSVal → Bool
  | undefined => false
  | null => false
  | bool b => b
  | num .nan => false
  | num .negZero => false
  | num (.finite q) => decide (q ≠ 0)
  | num .posInf => true
  | num .negInf => true
  | str s => !s.isEmpty
  | obj _ _ => true

/-- The test `typeof v === 'string'`. -/
def isString : JSVal → Bool
  | str _ => true
  | _ => false

/-- The test `typeof v !== 'undefined'`. -/
def isDefined : JSVal → Bool
  | undefined => false
  | _ => true

/-- The test `v === null`. -/
def isNull : JSVal → Bool
  | null => true
  | _ => false

/-- The test `v === true`. -/
def isTrue : JSVal → Bool
  | bool true => true
  | _ => false

/-- The expression `v || w`. -/
def orElse (v w : JSVal) : JSVal := if v.truthy then v else w

/-- The lookup of an own property in a property list. -/
def lookup (k : String) : List (String × JSVal) → JSVal
  | [] => undefined
  | (k', v) :: rest => if k' = k then v else lookup k rest

/-- The property read `v.k`: a `TypeError` on `undefined` and `null`, the own property of an
object, `undefined` on the other primitives (none of the names read by the code is a
property of a primitive wrapper). -/
def getProp (v : JSVal) (k : String) : Except Thrown JSVal :=
  match v with
  | undefined => .error .typeError
  | null => .error .typeError
  | obj _ props => .ok (lookup k props)
  | _ => .ok undefined

/-- The update of an own property: replaced in place, or appended. -/
def update (k : String) (x : JSVal) : List (String × JSVal) → List (String × JSVal)
  | [] => [(k, x)]
  | (k', v) :: rest => if k' = k then (k, x) :: rest else (k', v) :: update k x rest

/-- The assignment `v.k = x` in strict mode: a `TypeError` unless `v` is an object. -/
def setProp (v : JSVal) (k : String) (x : JSVal) : Except Thrown JSVal :=
  match v with
  | obj cls props => .ok (obj cls (update k x props))
  | _ => .error .typeError

/-- The statement `delete v.k` on an object. -/
def deleteProp (v : JSVal) (k : String) : Except Thrown JSVal :=
  match v with
  | undefined => .error .typeError
  | null => .error .typeError
  | obj cls props => .ok (obj cls (props.filter (fun p => p.1 ≠ k)))
  | w => .ok w

/-- The names of the own properties of a value. -/
def keys : JSVal → List String
  | obj _ props => props.map Prod.fst
  | _ => []

end JSVal

/-! ## Constant-time comparator -/

/-- The 32-bit residue of an operand of a bitwise operator (`ToInt32`, read unsigned: the
sign only relabels the residues and `0` stays `0`). -/
def toUint32 (n : Nat) : Nat := n % 2 ^ 32

/-- The operator `x ^ y` on 32-bit integers. -/
def bitXor (x y : Nat) : Nat := toUint32 x ^^^ toUint32 y

/-- The operator `x | y` on 32-bit integers. -/
def bitOr (x y : Nat) : Nat := toUint32 x ||| toUint32 y

/-- The call `s.charCodeAt(i)` as an operand of `^`: the code unit, and `NaN`, which `^`
reads as `0`, past the end. -/
def charCodeAt (s : JSString) (i : Nat) : Nat :=
  match s.get? i with
  | some c => c.val
  | none => 0

/-- The function `constEqual(str1, str2)`. -/
def constEqual (str1 str2 : JSVal) : Bool :=
  if !str1.isString || !str2.isString then false
  else
    match str1, str2 with
    | .str s1, .str s2 =>
      let mismatch := bitXor s1.length s2.length
      let len := min s1.length s2.length
      let mismatch := (List.range len).foldl
        (fun m i => bitOr m (bitXor (charCodeAt s1 i) (charCodeAt s2 i))) mismatch
      mismatch == 0
    | _, _ => false

/-- A string value has a length a JavaScript engine can hold: below `2 ^ 32` code units, the
range in which `length` survives the `ToInt32` of the bitwise operators.  Every other value
qualifies. -/
def JSVal.Storable : JSVal → Prop
  | .str s => s.length < 2 ^ 32
  | _ => True

/-! ## Randomness gate -/

namespace JSNum

/-- The comparison `n < c` against a finite literal `c`. -/
def ltLit (n : JSNum) (c : ℚ) : Bool :=
  match n with
  | nan => false
  | posInf => false
  | negInf => true
  | negZero => decide (0 < c)
  | finite q => decide (q < c)

/-- Rounding toward zero. -/
def truncQ (x : ℚ) : ℤ := if 0 ≤ x then ⌊x⌋ else ⌈x⌉

/-- The remainder `n % c` for a finite positive literal `c`: the sign of the dividend, so a
negative multiple gives `-0`. -/
def remLit (n : JSNum) (c : ℚ) : JSNum :=
  match n with
  | finite q =>
    let r := q - c * (truncQ (q / c) : ℚ)
    if r = 0 ∧ q < 0 then negZero else finite r
  | negZero => negZero
  | _ => nan

/-- The quotient `n / c` for a finite positive literal `c`. -/
def divLit (n : JSNum) (c : ℚ) : JSNum :=
  match n with
  | finite q => finite (q / c)
  | other => other

/-- The test `n !== 0`: both zeros are equal to `0`, `NaN` to nothing. -/
def strictNeZero : JSNum → Bool
  | finite q => decide (q ≠ 0)
  | negZero => false
  | _ => true

end JSNum

/-- The test `parseInt(v, 10) !== v`.  `parseInt` returns a Number, so the operands can be
strictly equal only when `v` is a Number.  `parseInt` reads the leading decimal digits of
`String(v)`: for `NaN` and the infinities it finds none and returns `NaN`, which is equal
to nothing; for `-0` it reads `"0"`, which is equal to `-0`; for a finite number it returns
an integer, which is `v` itself exactly when `v` is an integer printed in plain decimal
notation, that is of magnitude below `10 ^ 21` (from there on `String(v)` is in exponent
notation and `parseInt` stops after its first digit). -/
def parseIntDiffers : JSVal → Bool
  | .num (.finite q) => !(q.isInt && decide (|q| < 10 ^ 21))
  | .num .negZero => false
  | _ => true

/-- The function `randomBytes(nbytes)`, over the generator `sjcl.random.randomWords`. -/
def randomBytes {α : Type} (randomWords : JSNum → α) (nbytes : JSVal) : Except Thrown α :=
  if !nbytes.truthy then .error (.error "randomBytes requires input")
  else if parseIntDiffers nbytes then .error (.error "randomBytes requires integer input")
  else
    match nbytes with
    | .num n =>
      if n.ltLit 4 then .error (.error "randomBytes cannot return less than 4 bytes")
      else if (n.remLit 4).strictNeZero then
        .error (.error "randomBytes requires input as multiple of 4")
      else
        -- sjcl's words are 4 bytes (32 bits)
        let nwords := n.divLit 4
        .ok (randomWords nwords)
    | _ => .error (.error "randomBytes requires integer input")

/-! ## Client state, collaborators and effects -/

/-- The mutable fields of the `crypton` object and the `crypton` item of `sessionStorage`.
`clientVersionMismatch` is read only through its truthiness (`undefined` is `false`). -/
structure Client where
  clientVersionMismatch : Bool := false
  online : Bool := true
  sessionId : JSVal := .null
  collectorsStarted : Bool := false
  /-- the text stored under `'crypton'`, `none` when the item is absent -/
  sessionStorage : Option JSVal := none

/-- A `Session` object: the fields the code reads and writes. -/
structure Session where
  sessionId : JSVal
  account : JSVal

/-- The argument of `new crypton.Peer(...)`, with the `trusted` flag set afterwards. -/
structure Peer where
  session : Session
  pubKey : JSVal
  signKeyPub : JSVal
  trusted : Bool

/-- A request of the transport. -/
inductive Request
  /-- `GET /versioncheck?v=...&sid=...` -/
  | versionCheck (sid : JSVal)
  /-- `POST /account/<username>` -/
  | challenge (username : JSVal) (body : JSVal)
  /-- `POST /account/<username>/answer?sid=...` -/
  | answer (username : JSVal) (sid : JSVal) (body : JSVal)

/-- A call of an external collaborator or of `makeSession`, as it appears in a run. -/
inductive Event
  | http (req : Request)
  | startCollectors
  | randomWords (nwords : JSNum)
  | pbkdf2 (passphrase salt rounds : JSVal)
  | elGamalGenerateKeys (curve paranoia : JSVal)
  | ecdsaGenerateKeys (curve paranoia : JSVal)
  | srpClient (username passphrase : JSVal)
  | srpRandomHexSalt
  | srpCalculateV (salt : JSVal)
  | encryptAndSign (payload : JSVal)
  | encrypt (key plaintext : JSVal)
  | hmac (key data : JSVal)
  | accountSave (account : JSVal)
  | calculateSrpA (options : JSVal)
  | calculateSrpM1 (options : JSVal)
  | makeSession (sessionId account : JSVal)
  | getItem (key : String)
  | setItem (key : String) (text : JSVal)
  | unravel (account : JSVal)
  | getOrCreateItem (name : JSVal)
  | consoleError (message : JSVal)

/-- The external collaborators.  A collaborator that takes a continuation is given by the
arguments it passes to it; one that draws fresh randomness on every call also takes the
index of the call. -/
structure Env where
  /-- `res.body` of a request -/
  http : Request → JSVal
  /-- `sjcl.random.randomWords(nwords)`, by index of the call -/
  randomWords : Nat → JSNum → JSVal
  /-- `sjcl.misc.pbkdf2(passphrase, salt, rounds)` -/
  pbkdf2 : JSVal → JSVal → JSVal → JSVal
  /-- `sjcl.ecc.elGamal.generateKeys(curve, paranoia)` -/
  elGamalGenerateKeys : JSVal → JSVal → JSVal
  /-- `sjcl.ecc.ecdsa.generateKeys(curve, paranoia)` -/
  ecdsaGenerateKeys : JSVal → JSVal → JSVal
  /-- `key.serialize()` -/
  serialize : JSVal → JSVal
  /-- `sjcl.encrypt(key, plaintext, crypton.cipherOptions)`, by index of the call -/
  encrypt : Nat → JSVal → JSVal → JSVal
  /-- `new sjcl.misc.hmac(key).mac(data)` -/
  hmacMac : JSVal → JSVal → JSVal
  /-- `sjcl.codec.hex.fromBits(bits)` -/
  hexFromBits : JSVal → JSVal
  /-- `JSON.stringify(value)` -/
  stringify : JSVal → JSVal
  /-- `JSON.parse(text)` of a stored text -/
  parse : JSVal → Except Thrown JSVal
  /-- `srp.randomHexSalt()` of `new SRPClient(username, passphrase, 2048, 'sha-256')` -/
  srpRandomHexSalt : JSVal → JSVal → JSVal
  /-- the value of `srp.calculateV(salt)`, a `BigInteger` -/
  srpCalculateV : JSVal → JSVal → JSVal → Nat
  /-- `peer.encryptAndSign(payload)`, by index of the call -/
  encryptAndSign : Nat → Peer → JSVal → JSVal
  /-- the error `account.save` passes to its continuation -/
  save : JSVal → JSVal
  /-- the error `account.unravel` passes to its continuation -/
  unravel : JSVal → JSVal
  /-- the pair `(err, data)` that `crypton.work.calculateSrpA` passes on -/
  calculateSrpA : JSVal → JSVal × JSVal
  /-- the triple `(err, srpM1, ourSrpM2)` that `crypton.work.calculateSrpM1` passes on -/
  calculateSrpM1 : JSVal → JSVal × JSVal × JSVal
  /-- the error `session.getOrCreateItem` passes to its continuation -/
  getOrCreateItem : Session → JSVal → JSVal

/-- The client state together with the calls made so far, oldest first. -/
structure World where
  client : Client
  trace : List Event

/-- How a computation ends: with a value, or with an exception; in both cases in a world. -/
inductive Res (α : Type)
  | ok (a : α) (w : World)
  | threw (e : Thrown) (w : World)

/-- The world a computation ends in. -/
def Res.world {α : Type} : Res α → World
  | .ok _ w => w
  | .threw _ w => w

/-- The value a computation ends with, if it does not throw. -/
def Res.value {α : Type} : Res α → Option α
  | .ok a _ => some a
  | .threw _ _ => none

/-- An effectful computation. -/
def Eff (α : Type) : Type := World → Res α

/-- Sequencing: an exception skips the rest. -/
def Eff.bind {α β : Type} (m : Eff α) (f : α → Eff β) : Eff β := fun w =>
  match m w with
  | .ok a w1 => f a w1
  | .threw e w1 => .threw e w1

instance : Monad Eff where
  pure a := fun w => .ok a w
  bind := Eff.bind

/-- Record a call. -/
def emit (e : Event) : Eff Unit := fun w => .ok () { w with trace := w.trace ++ [e] }

/-- Read the client state. -/
def getClient : Eff Client := fun w => .ok w.client w

/-- Write the client state. -/
def setClient (f : Client → Client) : Eff Unit := fun w => .ok () { w with client := f w.client }

/-- Run a step that may throw. -/
def attempt {α : Type} (x : Except Thrown α) : Eff α := fun w =>
  match x with
  | .ok a => .ok a w
  | .error e => .threw e w

/-- The second argument a callback receives. -/
inductive Payload
  /-- the callback was given one argument -/
  | absent
  | null
  | account (a : JSVal)
  | session (s : Session)

/-- The arguments a callback receives. -/
structure Callback where
  err : JSVal
  payload : Payload

/-! ## Constants of the module -/

/-- The constant `MISMATCH_ERR`. -/
def MISMATCH_ERR : JSVal := .str (js "Server and client version mismatch")

/-- The constant `crypton.MIN_PBKDF2_ROUNDS`. -/
def MIN_PBKDF2_ROUNDS : JSVal := .num (.finite 1000)

/-- The constant `crypton.paranoia`. -/
def paranoia : JSVal := .num (.finite 6)

/-- The constant `crypton.trustedPeers`. -/
def trustedPeers : JSVal := .str (js "_trusted_peers")

/-! ## Version gate -/

/-- The method `crypton.startCollectors`. -/
def startCollectors : Eff Unit := do
  emit .startCollectors
  setClient (fun c => { c with collectorsStarted := true })

/-- The method `crypton.versionCheck(skip, callback)`: the value is the argument the
callback receives. -/
def versionCheck (env : Env) (skip : Bool) : Eff JSVal := do
  if skip then
    return .null
  let c ← getClient
  let req := Request.versionCheck c.sessionId
  emit (.http req)
  let body := env.http req
  let success ← attempt (body.getProp "success")
  if !success.isTrue then
    let error ← attempt (body.getProp "error")
    if error.isDefined then
      setClient (fun c => { c with clientVersionMismatch := true })
      return error
    else
      return .null
  else
    return .null

/-! ## Account provisioning -/

/-- One call of the module's `randomBytes`, the `i`-th of the run. -/
def drawBytes (env : Env) (i : Nat) (nbytes : JSVal) : Eff JSVal := do
  let words ← attempt (randomBytes (fun n => (n, env.randomWords i n)) nbytes)
  emit (.randomWords words.1)
  return words.2

/-- The method `crypton.hmac(key, data)`. -/
def hmac (env : Env) (key data : JSVal) : Eff JSVal := do
  emit (.hmac key data)
  return env.hexFromBits (env.hmacMac key data)

/-- Modelled from the spec: `BigInteger.prototype.toString(16)` of the SRP library, which is
not part of the source: the hexadecimal digits of the value, most significant first,
without leading zeros (`"0"` for zero). -/
def toHex (v : Nat) : JSString :=
  if v = 0 then js "0"
  else (Nat.digits 16 v).reverse.map
    (fun d => if d < 10 then Fin.ofNat (48 + d) else Fin.ofNat (87 + d))

/-- Modelled from the spec: `SRPClient.prototype.nZeros(n)` of the SRP library, which is not
part of the source: a run of `n` characters `'0'`, empty when `n < 1`. -/
def nZeros (n : Int) : JSString := List.replicate n.toNat (Fin.ofNat 48)

/-- The value a string of hexadecimal digits denotes (other characters count as `0`). -/
def hexValue (s : JSString) : Nat :=
  s.foldl (fun acc c =>
    16 * acc +
      (if 48 ≤ c.val ∧ c.val < 58 then c.val - 48
       else if 97 ≤ c.val ∧ c.val < 103 then c.val - 87
       else 0)) 0

/-- The `else` branch of the continuation `generateAccount` passes to `versionCheck`: what
runs once the version gate is passed.  `options` and `save` are the variables of the
enclosing function. -/
def generateAccountAfterCheck (env : Env) (username passphrase options save : JSVal) :
    Eff Callback := do
  if !username.truthy || !passphrase.truthy then
    return ⟨.str (js "Must supply username and passphrase"), .absent⟩
  let c ← getClient
  if !c.collectorsStarted then
    startCollectors
  let SIGN_KEY_BIT_LENGTH := JSVal.num (.finite 384)
  let optCurve ← attempt (options.getProp "keypairCurve")
  let keypairCurve := optCurve.orElse (.num (.finite 384))
  let numRounds := MIN_PBKDF2_ROUNDS
  let hmacKey ← drawBytes env 0 (.num (.finite 32))
  let keypairSalt ← drawBytes env 1 (.num (.finite 32))
  let keypairMacSalt ← drawBytes env 2 (.num (.finite 32))
  let signKeyPrivateMacSalt ← drawBytes env 3 (.num (.finite 32))
  let containerNameHmacKey ← drawBytes env 4 (.num (.finite 32))
  emit (.pbkdf2 passphrase keypairSalt numRounds)
  let keypairKey := env.pbkdf2 passphrase keypairSalt numRounds
  emit (.pbkdf2 passphrase keypairMacSalt numRounds)
  let keypairMacKey := env.pbkdf2 passphrase keypairMacSalt numRounds
  emit (.pbkdf2 passphrase signKeyPrivateMacSalt numRounds)
  let signKeyPrivateMacKey := env.pbkdf2 passphrase signKeyPrivateMacSalt numRounds
  emit (.elGamalGenerateKeys keypairCurve paranoia)
  let keypair := env.elGamalGenerateKeys keypairCurve paranoia
  emit (.ecdsaGenerateKeys SIGN_KEY_BIT_LENGTH paranoia)
  let signingKeys := env.ecdsaGenerateKeys SIGN_KEY_BIT_LENGTH paranoia
  emit (.srpClient username passphrase)
  emit .srpRandomHexSalt
  let srpSalt := env.srpRandomHexSalt username passphrase
  emit (.srpCalculateV srpSalt)
  let srpVerifier := toHex (env.srpCalculateV username passphrase srpSalt)
  let account : List (String × JSVal) := []
  let account := JSVal.update "username" username account
  let account := JSVal.update "keypairSalt" (env.stringify keypairSalt) account
  let account := JSVal.update "keypairMacSalt" (env.stringify keypairMacSalt) account
  let account :=
    JSVal.update "signKeyPrivateMacSalt" (env.stringify signKeyPrivateMacSalt) account
  -- Pad verifier to 512 bytes
  let account := JSVal.update "srpVerifier"
    (.str (nZeros (512 - (srpVerifier.length : Int)) ++ srpVerifier)) account
  let account := JSVal.update "srpSalt" srpSalt account
  -- pubkeys
  let keypairPub ← attempt (keypair.getProp "pub")
  let account := JSVal.update "pubKey" (env.stringify (env.serialize keypairPub)) account
  let signingPub ← attempt (signingKeys.getProp "pub")
  let account := JSVal.update "signKeyPub" (env.stringify (env.serialize signingPub)) account
  let sessionIdentifier := JSVal.str (js "dummySession")
  let signingSec ← attempt (signingKeys.getProp "sec")
  let account := JSVal.update "signKeyPrivate" signingSec account
  let selfPeer : Peer :=
    { session := ⟨sessionIdentifier, .obj .plain account⟩
      pubKey := keypairPub
      signKeyPub := signingPub
      trusted := true }
  -- hmac keys
  emit (.encryptAndSign (env.stringify hmacKey))
  let encryptedHmacKey := env.encryptAndSign 0 selfPeer (env.stringify hmacKey)
  let hmacKeyError ← attempt (encryptedHmacKey.getProp "error")
  if hmacKeyError.truthy then
    return ⟨hmacKeyError, .null⟩
  let account := JSVal.update "hmacKeyCiphertext" (env.stringify encryptedHmacKey) account
  let selfPeer := { selfPeer with session := ⟨sessionIdentifier, .obj .plain account⟩ }
  emit (.encryptAndSign (env.stringify containerNameHmacKey))
  let encryptedContainerNameHmacKey :=
    env.encryptAndSign 1 selfPeer (env.stringify containerNameHmacKey)
  let containerNameHmacKeyError ← attempt (encryptedContainerNameHmacKey.getProp "error")
  if containerNameHmacKeyError.truthy then
    return ⟨containerNameHmacKeyError, .null⟩
  let account := JSVal.update "containerNameHmacKeyCiphertext"
    (env.stringify encryptedContainerNameHmacKey) account
  -- private keys
  let keypairSec ← attempt (keypair.getProp "sec")
  let keypairPlain := env.stringify (env.serialize keypairSec)
  emit (.encrypt keypairKey keypairPlain)
  let keypairCiphertext := env.encrypt 0 keypairKey keypairPlain
  let account := JSVal.update "keypairCiphertext" keypairCiphertext account
  let keypairMac ← hmac env keypairMacKey keypairCiphertext
  let account := JSVal.update "keypairMac" keypairMac account
  let signingSec ← attempt (signingKeys.getProp "sec")
  let signingPlain := env.stringify (env.serialize signingSec)
  emit (.encrypt keypairKey signingPlain)
  let signKeyPrivateCiphertext := env.encrypt 1 keypairKey signingPlain
  let account := JSVal.update "signKeyPrivateCiphertext" signKeyPrivateCiphertext account
  let signKeyPrivateMac ← hmac env signKeyPrivateMacKey signKeyPrivateCiphertext
  let account := JSVal.update "signKeyPrivateMac" signKeyPrivateMac account
  if save.truthy then
    emit (.accountSave (.obj .plain account))
    return ⟨env.save (.obj .plain account), .account (.obj .plain account)⟩
  return ⟨.null, .account (.obj .plain account)⟩

/-- The function `crypton.generateAccount(username, passphrase, callback, options)`. -/
def generateAccount (env : Env) (username passphrase options : JSVal) : Eff Callback := do
  let c ← getClient
  if c.clientVersionMismatch then
    return ⟨MISMATCH_ERR, .absent⟩
  let options := options.orElse (.obj .plain [])
  let optSave ← attempt (options.getProp "save")
  let save := if optSave.isDefined then optSave else .bool true
  let err ← versionCheck env (!save.truthy)
  if err.truthy then
    return ⟨MISMATCH_ERR, .absent⟩
  else
    generateAccountAfterCheck env username passphrase options save

/-! ## Authentication -/

/-- The assignment `o.k = x` on an object the code has just created. -/
def JSVal.assign (o : JSVal) (k : String) (x : JSVal) : JSVal :=
  match o with
  | .obj cls props => .obj cls (JSVal.update k x props)
  | other => other

/-- The assignments `target.k = src.k`, one for each name, in order. -/
def copyFields (src : JSVal) :
    List String → List (String × JSVal) → Except Thrown (List (String × JSVal))
  | [], target => .ok target
  | k :: ks, target =>
    match src.getProp k with
    | .ok v => copyFields src ks (JSVal.update k v target)
    | .error e => .error e

/-- The account fields `makeSession` copies, in the order of the source. -/
def sessionAccountFields : List String :=
  ["challengeKey", "containerNameHmacKeyCiphertext", "hmacKeyCiphertext", "keypairCiphertext",
   "keypairMac", "pubKey", "challengeKeySalt", "keypairSalt", "keypairMacSalt", "signKeyPub",
   "signKeyPrivateCiphertext", "signKeyPrivateMacSalt", "signKeyPrivateMac"]

/-- The function `crypton.makeSession(sessionId, account)`. -/
def makeSession (sessionId account : JSVal) : Eff Session := do
  emit (.makeSession sessionId account)
  setClient (fun c => { c with sessionId := sessionId })
  let c ← getClient
  let fields ← attempt (copyFields account sessionAccountFields [])
  return ⟨c.sessionId, .obj .plain fields⟩

/-- The test `!res.body || res.body.success !== true` of the two response handlers. -/
def responseFailed (body : JSVal) : Except Thrown Bool :=
  if !body.truthy then .ok true
  else
    match body.getProp "success" with
    | .ok success => .ok (!success.isTrue)
    | .error e => .error e

/-- The function `crypton.loginWithStorage(username, passphrase, callback, data, options)`. -/
def loginWithStorage (env : Env) (username passphrase _data _options : JSVal) :
    Eff Callback := do
  emit (.getItem "crypton")
  let c ← getClient
  -- `getItem` gives `null` for an absent item, and `JSON.parse(null)` is `null`
  let parsed ← attempt (match c.sessionStorage with
    | none => .ok .null
    | some text => env.parse text)
  let sessionData ← attempt (parsed.getProp "Session")
  if sessionData.isNull then
    return ⟨.str (js "Offline server could not be verified"), .absent⟩
  let sid ← attempt (sessionData.getProp "sessionId")
  setClient (fun c => { c with sessionId := sid })
  let sid ← attempt (sessionData.getProp "sessionId")
  let cached ← attempt (sessionData.getProp "account")
  let session ← makeSession sid cached
  let session := { session with account := session.account.assign "username" username }
  let session := { session with account := session.account.assign "passphrase" passphrase }
  let options ← attempt (sessionData.getProp "options")
  let options ← attempt (options.setProp "username" username)
  let options ← attempt (options.setProp "passphrase" passphrase)
  emit (.calculateSrpM1 options)
  let ourSrpM2 := (env.calculateSrpM1 options).2.2
  let storedM2 ← attempt (sessionData.getProp "srpM2")
  if !constEqual storedM2 ourSrpM2 then
    return ⟨.str (js "Server could not be verified"), .absent⟩
  emit (.unravel session.account)
  let err := env.unravel session.account
  if err.truthy then
    return ⟨err, .absent⟩
  return ⟨.null, .session session⟩

/-- The function `crypton.login(username, passphrase, callback, data, options)`. -/
def login (env : Env) (username passphrase data options : JSVal) : Eff Callback := do
  let srpAstr ← attempt (data.getProp "srpAstr")
  let response := JSVal.obj .plain [("srpA", srpAstr)]
  let req := Request.challenge username response
  emit (.http req)
  let body := env.http req
  if ← attempt (responseFailed body) then
    let error ← attempt (body.getProp "error")
    return ⟨error, .absent⟩
  -- check for response session header
  let sid ← attempt (body.getProp "sid")
  setClient (fun c => { c with sessionId := sid })
  let a ← attempt (data.getProp "a")
  let options ← attempt (options.setProp "a" a)
  let srpA ← attempt (data.getProp "srpA")
  let options ← attempt (options.setProp "srpA" srpA)
  let srpB ← attempt (body.getProp "srpB")
  let options ← attempt (options.setProp "srpB" srpB)
  let srpSalt ← attempt (body.getProp "srpSalt")
  let options ← attempt (options.setProp "srpSalt" srpSalt)
  -- calculateSrpM1
  emit (.calculateSrpM1 options)
  let srpM1 := (env.calculateSrpM1 options).2.1
  let ourSrpM2 := (env.calculateSrpM1 options).2.2
  let response := JSVal.obj .plain [("srpM1", srpM1)]
  let c ← getClient
  let req := Request.answer username c.sessionId response
  emit (.http req)
  let body := env.http req
  if ← attempt (responseFailed body) then
    let error ← attempt (body.getProp "error")
    return ⟨error, .absent⟩
  let srpM2 ← attempt (body.getProp "srpM2")
  if !constEqual srpM2 ourSrpM2 then
    return ⟨.str (js "Server could not be verified"), .absent⟩
  let c ← getClient
  let received ← attempt (body.getProp "account")
  let session ← makeSession c.sessionId received
  -- Save session data in local storage
  let options ← attempt (options.deleteProp "username")
  let options ← attempt (options.deleteProp "passphrase")
  let c ← getClient
  let srpM2 ← attempt (body.getProp "srpM2")
  let sessionToLocalStorage := JSVal.obj .plain
    [("Session", .obj .plain
        [("sessionId", c.sessionId), ("account", session.account), ("options", options),
         ("srpM2", srpM2)]),
     ("containers", .obj .plain [])]
  let text := env.stringify sessionToLocalStorage
  emit (.setItem "crypton" text)
  setClient (fun c => { c with sessionStorage := some text })
  let session := { session with account := session.account.assign "username" username }
  let session := { session with account := session.account.assign "passphrase" passphrase }
  emit (.unravel session.account)
  let err := env.unravel session.account
  if err.truthy then
    return ⟨err, .absent⟩
  -- check for internal 'trusted peers' Item
  emit (.getOrCreateItem trustedPeers)
  let err := env.getOrCreateItem session trustedPeers
  if err.truthy then
    let message := JSVal.str (js "Cannot get \"trusted peers\" Item")
    emit (.consoleError message)
    -- still need to return the session
    return ⟨message, .session session⟩
  return ⟨.null, .session session⟩

/-- The `else` branch of the continuation `authorize` passes to `versionCheck`: what runs
once the version gate is passed. -/
def authorizeAfterCheck (env : Env) (username passphrase : JSVal) : Eff Callback := do
  if !username.truthy || !passphrase.truthy then
    return ⟨.str (js "Must supply username and passphrase"), .absent⟩
  let c ← getClient
  if !c.collectorsStarted then
    startCollectors
  let options := JSVal.obj .plain [("username", username), ("passphrase", passphrase)]
  emit (.calculateSrpA options)
  let err := (env.calculateSrpA options).1
  let data := (env.calculateSrpA options).2
  if err.truthy then
    return ⟨err, .absent⟩
  let c ← getClient
  if c.online then
    login env username passphrase data options
  else
    loginWithStorage env username passphrase data options

/-- The function `crypton.authorize(username, passphrase, callback, options)`. -/
def authorize (env : Env) (username passphrase options : JSVal) : Eff Callback := do
  let c ← getClient
  if c.clientVersionMismatch then
    return ⟨MISMATCH_ERR, .absent⟩
  let options := options.orElse (.obj .plain [])
  let optCheck ← attempt (options.getProp "check")
  let check := if optCheck.isDefined then optCheck else .bool true
  let check := if !c.online then .bool false else check
  let err ← versionCheck env (!check.truthy)
  if err.truthy then
    return ⟨MISMATCH_ERR, .absent⟩
  else
    authorizeAfterCheck env username passphrase

/-! ## Summaries of a provisioning run

The values a complete run of `generateAccountAfterCheck` computes, written out as functions
of the inputs and of the collaborators; the theorems below prove that the code computes them.
-/

/-- A value on which a property read throws. -/
def JSVal.nullish : JSVal → Bool
  | .undefined => true
  | .null => true
  | _ => false

/-- The own property `v.k` of a value on which the read does not throw. -/
def JSVal.field (v : JSVal) (k : String) : JSVal :=
  match v with
  | .obj _ props => JSVal.lookup k props
  | _ => .undefined

/-- The five 32-byte draws of a run, in order: `hmacKey`, `keypairSalt`, `keypairMacSalt`,
`signKeyPrivateMacSalt`, `containerNameHmacKey`. -/
def draw (env : Env) (i : Nat) : JSVal := env.randomWords i (.finite 8)

/-- The encryption keypair of a run. -/
def keypairOf (env : Env) (options : JSVal) : JSVal :=
  env.elGamalGenerateKeys ((options.field "keypairCurve").orElse (.num (.finite 384))) paranoia

/-- The signing keypair of a run. -/
def signingKeysOf (env : Env) : JSVal :=
  env.ecdsaGenerateKeys (.num (.finite 384)) paranoia

/-- The padded verifier of a run. -/
def paddedVerifier (env : Env) (username passphrase : JSVal) : JSString :=
  let v := toHex (env.srpCalculateV username passphrase (env.srpRandomHexSalt username passphrase))
  nZeros (512 - (v.length : Int)) ++ v

/-- The account fields set before the first self-encryption. -/
def accountBeforeHmac (env : Env) (username passphrase options : JSVal) :
    List (String × JSVal) :=
  JSVal.update "signKeyPrivate" ((signingKeysOf env).field "sec")
   (JSVal.update "signKeyPub" (env.stringify (env.serialize ((signingKeysOf env).field "pub")))
    (JSVal.update "pubKey" (env.stringify (env.serialize ((keypairOf env options).field "pub")))
     (JSVal.update "srpSalt" (env.srpRandomHexSalt username passphrase)
      (JSVal.update "srpVerifier" (.str (paddedVerifier env username passphrase))
       (JSVal.update "signKeyPrivateMacSalt" (env.stringify (draw env 3))
        (JSVal.update "keypairMacSalt" (env.stringify (draw env 2))
         (JSVal.update "keypairSalt" (env.stringify (draw env 1))
          (JSVal.update "username" username []))))))))

/-- The self peer at the first self-encryption. -/
def selfPeerFirst (env : Env) (username passphrase options : JSVal) : Peer :=
  { session := ⟨.str (js "dummySession"),
      .obj .plain (accountBeforeHmac env username passphrase options)⟩
    pubKey := (keypairOf env options).field "pub"
    signKeyPub := (signingKeysOf env).field "pub"
    trusted := true }

/-- The result of self-encrypting `hmacKey`. -/
def encryptedHmacKeyOf (env : Env) (username passphrase options : JSVal) : JSVal :=
  env.encryptAndSign 0 (selfPeerFirst env username passphrase options)
    (env.stringify (draw env 0))

/-- The self peer at the second self-encryption. -/
def selfPeerSecond (env : Env) (username passphrase options : JSVal) : Peer :=
  { session := ⟨.str (js "dummySession"),
      .obj .plain (JSVal.update "hmacKeyCiphertext"
        (env.stringify (encryptedHmacKeyOf env username passphrase options))
        (accountBeforeHmac env username passphrase options))⟩
    pubKey := (keypairOf env options).field "pub"
    signKeyPub := (signingKeysOf env).field "pub"
    trusted := true }

/-- The result of self-encrypting `containerNameHmacKey`. -/
def encryptedContainerKeyOf (env : Env) (username passphrase options : JSVal) : JSVal :=
  env.encryptAndSign 1 (selfPeerSecond env username passphrase options)
    (env.stringify (draw env 4))

/-- The key derived from `keypairSalt`. -/
def keypairKeyOf (env : Env) (passphrase : JSVal) : JSVal :=
  env.pbkdf2 passphrase (draw env 1) MIN_PBKDF2_ROUNDS

/-- The serialised private key of the encryption keypair. -/
def keypairPlainOf (env : Env) (options : JSVal) : JSVal :=
  env.stringify (env.serialize ((keypairOf env options).field "sec"))

/-- The serialised private signing key. -/
def signingPlainOf (env : Env) : JSVal :=
  env.stringify (env.serialize ((signingKeysOf env).field "sec"))

/-- The complete account of a run. -/
def builtAccount (env : Env) (username passphrase options : JSVal) : List (String × JSVal) :=
  JSVal.update "signKeyPrivateMac"
    (env.hexFromBits (env.hmacMac (env.pbkdf2 passphrase (draw env 3) MIN_PBKDF2_ROUNDS)
      (env.encrypt 1 (keypairKeyOf env passphrase) (signingPlainOf env))))
   (JSVal.update "signKeyPrivateCiphertext"
      (env.encrypt 1 (keypairKeyOf env passphrase) (signingPlainOf env))
    (JSVal.update "keypairMac"
      (env.hexFromBits (env.hmacMac (env.pbkdf2 passphrase (draw env 2) MIN_PBKDF2_ROUNDS)
        (env.encrypt 0 (keypairKeyOf env passphrase) (keypairPlainOf env options))))
     (JSVal.update "keypairCiphertext"
        (env.encrypt 0 (keypairKeyOf env passphrase) (keypairPlainOf env options))
      (JSVal.update "containerNameHmacKeyCiphertext"
        (env.stringify (encryptedContainerKeyOf env username passphrase options))
       (JSVal.update "hmacKeyCiphertext"
          (env.stringify (encryptedHmacKeyOf env username passphrase options))
          (accountBeforeHmac env username passphrase options))))))

/-- The calls of a run up to the first self-encryption. -/
def traceBeforeHmac (env : Env) (username passphrase options : JSVal) : List Event :=
  [.randomWords (.finite 8), .randomWords (.finite 8), .randomWords (.finite 8),
   .randomWords (.finite 8), .randomWords (.finite 8),
   .pbkdf2 passphrase (draw env 1) MIN_PBKDF2_ROUNDS,
   .pbkdf2 passphrase (draw env 2) MIN_PBKDF2_ROUNDS,
   .pbkdf2 passphrase (draw env 3) MIN_PBKDF2_ROUNDS,
   .elGamalGenerateKeys ((options.field "keypairCurve").orElse (.num (.finite 384))) paranoia,
   .ecdsaGenerateKeys (.num (.finite 384)) paranoia,
   .srpClient username passphrase,
   .srpRandomHexSalt,
   .srpCalculateV (env.srpRandomHexSalt username passphrase),
   .encryptAndSign (env.stringify (draw env 0))]

/-- The calls of a run from the private-key encryptions on. -/
def traceOfWrapping (env : Env) (passphrase options : JSVal) : List Event :=
  [.encrypt (keypairKeyOf env passphrase) (keypairPlainOf env options),
   .hmac (env.pbkdf2 passphrase (draw env 2) MIN_PBKDF2_ROUNDS)
     (env.encrypt 0 (keypairKeyOf env passphrase) (keypairPlainOf env options)),
   .encrypt (keypairKeyOf env passphrase) (signingPlainOf env),
   .hmac (env.pbkdf2 passphrase (draw env 3) MIN_PBKDF2_ROUNDS)
     (env.encrypt 1 (keypairKeyOf env passphrase) (signingPlainOf env))]

/-- The world once the collectors have been started if they were not. -/
def afterCollectors (w : World) : World :=
  if w.client.collectorsStarted then w
  else
    { client := { w.client with collectorsStarted := true }
      trace := w.trace ++ [.startCollectors] }

/-- The keys passed to `sjcl.encrypt` in a run, in order. -/
def encryptionKeys : List Event → List JSVal
  | [] => []
  | .encrypt key _ :: rest => key :: encryptionKeys rest
  | _ :: rest => encryptionKeys rest

/-- The variable `save` of `generateAccount`: `options.save`, `true` when it is undefined. -/
def saveOf (options : JSVal) : JSVal :=
  if ((options.orElse (.obj .plain [])).field "save").isDefined then
    (options.orElse (.obj .plain [])).field "save"
  else .bool true

/-- The variable `check` of `authorize`: `options.check`, `true` when it is undefined, and
`false` when the client is offline. -/
def checkOf (online : Bool) (options : JSVal) : JSVal :=
  if !online then .bool false
  else if ((options.orElse (.obj .plain [])).field "check").isDefined then
    (options.orElse (.obj .plain [])).field "check"
  else .bool true

/-- The world after the request to the version-check endpoint. -/
def afterVersionRequest (w : World) : World :=
  { w with trace := w.trace ++ [.http (.versionCheck w.client.sessionId)] }

/-- The calls that precede the provisioning steps: the version check unless it is skipped,
and the start of the collectors unless they run. -/
def gateTrace (w : World) (save : JSVal) : List Event :=
  (if save.truthy then [.http (.versionCheck w.client.sessionId)] else []) ++
  (if w.client.collectorsStarted then [] else [.startCollectors])

/-! ## Properties of runs -/

/-- Every call a computation adds to the trace satisfies `P`, whatever the world and the
outcome. -/
def Emits {α : Type} (P : Event → Prop) (m : Eff α) : Prop :=
  ∀ w, ∃ es, (m w).world.trace = w.trace ++ es ∧ ∀ e ∈ es, P e

/-- The call is a request to the version-check endpoint. -/
def Event.isVersionCheck : Event → Bool
  | .http (.versionCheck _) => true
  | _ => false

/-- The call persists an account. -/
def Event.isAccountSave : Event → Bool
  | .accountSave _ => true
  | _ => false

/-! ## Sample collaborators and inputs

Concrete collaborators on which the functions can be run: every step succeeds, the server
proof matches, and the values are small enough to read.
-/

/-- The response body the sample server gives to every request. -/
def sampleBody : JSVal :=
  .obj .plain
    [("success", .bool true), ("sid", .str (js "sid-1")), ("srpB", .str (js "b0")),
     ("srpSalt", .str (js "5a")), ("srpM2", .str (js "4d32")),
     ("account", .obj .plain [("pubKey", .str (js "pk")), ("keypairSalt", .str (js "ks"))])]

/-- The sample collaborators. -/
def sampleEnv : Env where
  http := fun _ => sampleBody
  randomWords := fun i _ => .obj .array [("0", .str (List.replicate i (Fin.ofNat 119)))]
  pbkdf2 := fun passphrase salt _ => .obj .array [("0", passphrase), ("1", salt)]
  elGamalGenerateKeys := fun _ _ =>
    .obj .plain [("pub", .str (js "elgamal-pub")), ("sec", .str (js "elgamal-sec"))]
  ecdsaGenerateKeys := fun _ _ =>
    .obj .plain [("pub", .str (js "ecdsa-pub")), ("sec", .str (js "ecdsa-sec"))]
  serialize := fun key => key
  encrypt := fun _ key plaintext => .obj .plain [("key", key), ("ct", plaintext)]
  hmacMac := fun key data => .obj .array [("0", key), ("1", data)]
  hexFromBits := fun bits => bits
  stringify := fun value => value
  parse := fun text => .ok text
  srpRandomHexSalt := fun _ _ => .str (js "5a")
  srpCalculateV := fun _ _ _ => 48879
  encryptAndSign := fun _ _ payload => .obj .plain [("ciphertext", payload)]
  save := fun _ => .null
  unravel := fun _ => .null
  calculateSrpA := fun _ =>
    (.null, .obj .plain
      [("a", .str (js "a0")), ("srpA", .str (js "a1")), ("srpAstr", .str (js "a1"))])
  calculateSrpM1 := fun _ => (.null, .str (js "4d31"), .str (js "4d32"))
  getOrCreateItem := fun _ _ => .null

/-- The sample collaborators with a server whose version check answers
`{success: false, error: ""}`. -/
def emptyErrorEnv : Env :=
  { sampleEnv with
    http := fun req =>
      match req with
      | .versionCheck _ => .obj .plain [("success", .bool false), ("error", .str [])]
      | other => sampleEnv.http other }

/-- The sample collaborators with a server whose answer carries a proof that differs from
the expected one in its last character. -/
def forgedEnv : Env :=
  { sampleEnv with calculateSrpM1 := fun _ => (.null, .str (js "4d31"), .str (js "4d33")) }

/-- A sample username. -/
def alice : JSVal := .str (js "alice")

/-- A sample passphrase. -/
def horse : JSVal := .str (js "correct horse")

/-- Another sample passphrase. -/
def staple : JSVal := .str (js "battery staple")

/-- The options of an offline provisioning. -/
def offlineOptions : JSVal := .obj .plain [("save", .bool false)]

/-- A client in its initial state, with nothing called yet. -/
def freshWorld : World := ⟨{}, []⟩

/-- A client whose mismatch flag was set by an earlier version check. -/
def flaggedWorld : World := ⟨{ clientVersionMismatch := true }, []⟩

/-- A cached snapshot as `login` writes it, with the given stored proof. -/
def snapshotWith (srpM2 : JSVal) : JSVal :=
  .obj .plain
    [("Session", .obj .plain
        [("sessionId", .str (js "sid-1")),
         ("account", .obj .plain [("pubKey", .str (js "pk"))]),
         ("options", .obj .plain [("a", .str (js "a0")), ("srpA", .str (js "a1"))]),
         ("srpM2", srpM2)]),
     ("containers", .obj .plain [])]

/-- An offline client whose cache holds a snapshot with the given stored proof. -/
def cachedWorld (srpM2 : JSVal) : World :=
  ⟨{ online := false, sessionStorage := some (snapshotWith srpM2) }, []⟩

/-! ## Summaries of a login run -/

/-- The statement `delete o.k` on a value on which it does not throw. -/
def JSVal.remove (o : JSVal) (k : String) : JSVal :=
  match o with
  | .obj cls props => .obj cls (props.filter (fun q => q.1 ≠ k))
  | other => other

/-- The options object `authorize` builds from the credentials. -/
def credentials (username passphrase : JSVal) : JSVal :=
  .obj .plain [("username", username), ("passphrase", passphrase)]

/-- The body of the first request of `login`. -/
def challengeRequest (username data : JSVal) : Request :=
  .challenge username (.obj .plain [("srpA", data.field "srpAstr")])

/-- The options once `login` has stored the exchange values in them. -/
def exchangeOptions (options data challenge : JSVal) : JSVal :=
  (((options.assign "a" (data.field "a")).assign "srpA" (data.field "srpA")).assign
    "srpB" (challenge.field "srpB")).assign "srpSalt" (challenge.field "srpSalt")

/-- The second request of `login`. -/
def answerRequest (env : Env) (username data options : JSVal) : Request :=
  .answer username ((env.http (challengeRequest username data)).field "sid")
    (.obj .plain
      [("srpM1", (env.calculateSrpM1
        (exchangeOptions options data (env.http (challengeRequest username data)))).2.1)])

/-- The proof `login` expects from the server. -/
def expectedM2 (env : Env) (username data options : JSVal) : JSVal :=
  (env.calculateSrpM1
    (exchangeOptions options data (env.http (challengeRequest username data)))).2.2

/-- The account object `makeSession` builds from a received account. -/
def sessionAccountOf (received : JSVal) : JSVal :=
  .obj .plain (sessionAccountFields.foldl (fun t k => JSVal.update k (received.field k) t) [])

/-- The object `login` serialises into the session cache. -/
def cacheSnapshot (sessionId account options srpM2 : JSVal) : JSVal :=
  .obj .plain
    [("Session", .obj .plain
        [("sessionId", sessionId), ("account", account), ("options", options),
         ("srpM2", srpM2)]),
     ("containers", .obj .plain [])]

/-- The call creates a session, writes the session cache or decrypts an account. -/
def Event.usesAccount : Event → Bool
  | .makeSession _ _ => true
  | .setItem _ _ => true
  | .unravel _ => true
  | _ => false

/-- The options `loginWithStorage` hands to the worker: the cached ones with the supplied
credentials. -/
def replayOptions (cached username passphrase : JSVal) : JSVal :=
  (cached.assign "username" username).assign "passphrase" passphrase

/-! ## The comparator -/

theorem toUint32_of_lt {n : Nat} (h : n < 2 ^ 32) : toUint32 n = n := Nat.mod_eq_of_lt h

theorem bitXor_lt (x y : Nat) : bitXor x y < 2 ^ 32 :=
  Nat.xor_lt_two_pow (Nat.mod_lt _ (by norm_num)) (Nat.mod_lt _ (by norm_num))

theorem bitOr_eq_zero {m x : Nat} (hm : m < 2 ^ 32) (hx : x < 2 ^ 32) :
    bitOr m x = 0 ↔ m = 0 ∧ x = 0 := by
  unfold bitOr
  rw [toUint32_of_lt hm, toUint32_of_lt hx]
  constructor
  · intro h
    refine ⟨?_, ?_⟩
    · apply Nat.eq_of_testBit_eq
      intro i
      have := congrArg (fun n => n.testBit i) h
      simp only [Nat.testBit_or, Nat.zero_testBit, Bool.or_eq_false_iff] at this
      simp [this.1]
    · apply Nat.eq_of_testBit_eq
      intro i
      have := congrArg (fun n => n.testBit i) h
      simp only [Nat.testBit_or, Nat.zero_testBit, Bool.or_eq_false_iff] at this
      simp [this.2]
  · rintro ⟨rfl, rfl⟩
    rfl

theorem bitOr_lt (m x : Nat) : bitOr m x < 2 ^ 32 :=
  Nat.or_lt_two_pow (Nat.mod_lt _ (by norm_num)) (Nat.mod_lt _ (by norm_num))

theorem foldl_bitOr_eq_zero (g : Nat → Nat) (hg : ∀ i, g i < 2 ^ 32) (l : List Nat) :
    ∀ m, m < 2 ^ 32 →
      (l.foldl (fun m i => bitOr m (g i)) m = 0 ↔ m = 0 ∧ ∀ i ∈ l, g i = 0) := by
  induction l with
  | nil => intro m _; simp
  | cons a l ih =>
    intro m hm
    rw [List.foldl_cons, ih _ (bitOr_lt _ _), bitOr_eq_zero hm (hg a)]
    simp only [List.mem_cons, forall_eq_or_imp]
    tauto

theorem charCodeAt_lt (s : JSString) (i : Nat) : charCodeAt s i < 2 ^ 32 := by
  unfold charCodeAt
  cases h : s.get? i with
  | none => simp
  | some c => exact lt_trans c.isLt (by norm_num)

theorem bitXor_eq_zero {x y : Nat} (hx : x < 2 ^ 32) (hy : y < 2 ^ 32) :
    bitXor x y = 0 ↔ x = y := by
  unfold bitXor
  rw [toUint32_of_lt hx, toUint32_of_lt hy, Nat.xor_eq_zero]

theorem constEqual_str_iff (s1 s2 : JSString) (h1 : s1.length < 2 ^ 32)
    (h2 : s2.length < 2 ^ 32) : constEqual (.str s1) (.str s2) = true ↔ s1 = s2 := by
  simp only [constEqual, JSVal.isString, Bool.not_true, Bool.or_self, Bool.false_eq_true,
    if_false, beq_iff_eq]
  rw [foldl_bitOr_eq_zero (fun i => bitXor (charCodeAt s1 i) (charCodeAt s2 i))
    (fun i => bitXor_lt _ _) _ _ (bitXor_lt _ _), bitXor_eq_zero h1 h2]
  constructor
  · rintro ⟨hlen, hall⟩
    apply List.ext_get hlen
    intro i hi1 hi2
    have h := hall i (by simp [List.mem_range, hlen]; omega)
    rw [bitXor_eq_zero (charCodeAt_lt _ _) (charCodeAt_lt _ _)] at h
    simp only [charCodeAt, List.get?_eq_get hi1, List.get?_eq_get hi2] at h
    exact Fin.ext h
  · rintro rfl
    refine ⟨rfl, fun i _ => ?_⟩
    rw [bitXor_eq_zero (charCodeAt_lt _ _) (charCodeAt_lt _ _)]

/-- The comparator accepts exactly two equal strings. -/
theorem constEqual_str_or (a b : JSVal) (ha : a.Storable) (hb : b.Storable) :
    constEqual a b = true ↔ ∃ s, a = .str s ∧ b = .str s := by
  cases a <;> cases b <;> simp [constEqual, JSVal.isString]
  rename_i s1 s2
  have := constEqual_str_iff s1 s2 ha hb
  simp only [constEqual, JSVal.isString, Bool.not_true, Bool.or_self, Bool.false_eq_true,
    if_false, beq_iff_eq] at this
  rw [this]
  exact eq_comm

/-- C1: `constEqual(a, b)` is `true` exactly when both arguments are strings and they are the
same string (same length, same code unit at every position); it is `false` for two strings
that differ in length or content, and `false` as soon as one argument is not a string, also
when the two arguments are equal.  Lengths are those a JavaScript engine can hold. -/
theorem constEqual_true_iff (a b : JSVal) (ha : a.Storable) (hb : b.Storable) :
    (constEqual a b = true ↔ ∃ s, a = .str s ∧ b = .str s) ∧
    (∀ s1 s2, a = .str s1 → b = .str s2 →
      (s1.length ≠ s2.length ∨ (∃ i, i < s1.length ∧ s1.get? i ≠ s2.get? i)) →
      constEqual a b = false) ∧
    (a.isString = false ∨ b.isString = false → constEqual a b = false) := by
  refine ⟨constEqual_str_or a b ha hb, ?_, ?_⟩
  · rintro s1 s2 rfl rfl hne
    have h := constEqual_str_iff s1 s2 ha hb
    cases hc : constEqual (.str s1) (.str s2) with
    | false => rfl
    | true =>
      have heq := h.mp hc
      subst heq
      rcases hne with hne | ⟨i, _, hi⟩
      · exact absurd rfl hne
      · exact absurd rfl hi
  · intro h
    cases a <;> cases b <;> simp_all [constEqual, JSVal.isString]

/-- Witness of C1 on the strings `"ab"` and `"ab"`. -/
theorem constEqual_true_iff_witness :
    (JSVal.str (js "ab")).Storable ∧
    (constEqual (.str (js "ab")) (.str (js "ab")) = true ↔
      ∃ s, JSVal.str (js "ab") = .str s ∧ JSVal.str (js "ab") = .str s) :=
  ⟨by show (js "ab").length < 2 ^ 32; decide,
   (constEqual_true_iff (.str (js "ab")) (.str (js "ab"))
      (by show (js "ab").length < 2 ^ 32; decide)
      (by show (js "ab").length < 2 ^ 32; decide)).1⟩

/-! ## The randomness gate -/

theorem isInt_intCast (z : ℤ) : (z : ℚ).isInt = true := by
  simp [Rat.isInt]

theorem exists_int_of_isInt {q : ℚ} (h : q.isInt = true) : ∃ z : ℤ, q = z :=
  ⟨q.num, Rat.eq_num_of_isInt h⟩

theorem truncQ_intCast_div_four (z : ℤ) (hz : 0 ≤ z) :
    JSNum.truncQ ((z : ℚ) / 4) = z / 4 := by
  have h0 : (0 : ℚ) ≤ (z : ℚ) / 4 := by positivity
  have h4 : ((4 : ℕ) : ℚ) = 4 := by norm_num
  unfold JSNum.truncQ
  rw [if_pos h0, ← h4, Rat.floor_intCast_div_natCast]
  rfl

theorem rem_intCast_four (z : ℤ) (hz : 0 ≤ z) :
    (z : ℚ) - 4 * (JSNum.truncQ ((z : ℚ) / 4) : ℚ) = ((z % 4 : ℤ) : ℚ) := by
  rw [truncQ_intCast_div_four z hz, Int.emod_def]
  push_cast
  ring

theorem intCast_div_four (z : ℤ) (h : 4 ∣ z) : (z : ℚ) / 4 = ((z / 4 : ℤ) : ℚ) := by
  obtain ⟨k, rfl⟩ := h
  rw [Int.mul_ediv_cancel_left k (by norm_num)]
  push_cast
  field_simp

theorem truthy_intCast (z : ℤ) :
    (JSVal.num (.finite (z : ℚ))).truthy = decide (z ≠ 0) := by
  by_cases h : z = 0
  · subst h; simp [JSVal.truthy]
  · have : (z : ℚ) ≠ 0 := by exact_mod_cast h
    simp [JSVal.truthy, h, this]

theorem parseIntDiffers_intCast (z : ℤ) :
    parseIntDiffers (.num (.finite (z : ℚ))) = decide ((10 : ℤ) ^ 21 ≤ |z|) := by
  have habs : (|(z : ℚ)| < 10 ^ 21) ↔ |z| < 10 ^ 21 := by
    rw [← Int.cast_abs]
    exact_mod_cast Iff.rfl
  show (!((z : ℚ).isInt && decide (|(z : ℚ)| < 10 ^ 21))) = _
  rw [isInt_intCast, Bool.true_and]
  by_cases h : (10 : ℤ) ^ 21 ≤ |z|
  · have h2 : ¬ (|(z : ℚ)| < 10 ^ 21) := by rw [habs]; exact not_lt.mpr h
    rw [decide_eq_true h, decide_eq_false h2]; rfl
  · have h2 : |(z : ℚ)| < 10 ^ 21 := by rw [habs]; exact not_le.mp h
    rw [decide_eq_false h, decide_eq_true h2]; rfl

theorem ltLit_intCast (z : ℤ) : (JSNum.finite (z : ℚ)).ltLit 4 = decide (z < 4) := by
  show decide ((z : ℚ) < 4) = _
  by_cases h : z < 4
  · have : (z : ℚ) < 4 := by exact_mod_cast h
    rw [decide_eq_true h, decide_eq_true this]
  · have : ¬ ((z : ℚ) < 4) := fun h2 => h (by exact_mod_cast h2)
    rw [decide_eq_false h, decide_eq_false this]

theorem remLit_intCast (z : ℤ) (hz : 0 ≤ z) :
    ((JSNum.finite (z : ℚ)).remLit 4).strictNeZero = decide (¬ ((4 : ℤ) ∣ z)) := by
  have hzq : ¬ ((z : ℚ) < 0) := fun h => absurd hz (not_le.mpr (by exact_mod_cast h))
  unfold JSNum.remLit
  simp only [rem_intCast_four z hz, hzq, and_false, if_false]
  show decide (((z % 4 : ℤ) : ℚ) ≠ 0) = _
  by_cases hd : (4 : ℤ) ∣ z
  · have hm : z % 4 = 0 := Int.emod_eq_zero_of_dvd hd
    rw [decide_eq_false (not_not.mpr hd), hm]
    simp
  · have hm : ¬ (z % 4 = 0) := fun h => hd (Int.dvd_of_emod_eq_zero h)
    have hmq : ((z % 4 : ℤ) : ℚ) ≠ 0 := by exact_mod_cast hm
    rw [decide_eq_true hd, decide_eq_true hmq]

theorem divLit_intCast (z : ℤ) (hd : (4 : ℤ) ∣ z) :
    (JSNum.finite (z : ℚ)).divLit 4 = .finite ((z / 4 : ℤ) : ℚ) := by
  show JSNum.finite ((z : ℚ) / 4) = _
  rw [intCast_div_four z hd]

/-- The value of `randomBytes` on an integer-valued Number, check by check. -/
theorem randomBytes_intCast {α : Type} (rw : JSNum → α) (z : ℤ) :
    randomBytes rw (.num (.finite z)) =
      if z = 0 then .error (.error "randomBytes requires input")
      else if (10 : ℤ) ^ 21 ≤ |z| then .error (.error "randomBytes requires integer input")
      else if z < 4 then .error (.error "randomBytes cannot return less than 4 bytes")
      else if ¬ ((4 : ℤ) ∣ z) then
        .error (.error "randomBytes requires input as multiple of 4")
      else .ok (rw (.finite ((z / 4 : ℤ) : ℚ))) := by
  unfold randomBytes
  rw [truthy_intCast, parseIntDiffers_intCast]
  by_cases h0 : z = 0
  · rw [if_pos h0, decide_eq_false (not_not.mpr h0)]; rfl
  rw [if_neg h0, decide_eq_true h0]
  by_cases hbig : (10 : ℤ) ^ 21 ≤ |z|
  · rw [if_pos hbig, decide_eq_true hbig]; rfl
  rw [if_neg hbig, decide_eq_false hbig]
  show (if (JSNum.finite (z : ℚ)).ltLit 4 = true then _ else _) = _
  rw [ltLit_intCast]
  by_cases h4 : z < 4
  · rw [if_pos h4, decide_eq_true h4]; rfl
  rw [if_neg h4, decide_eq_false h4]
  have hz : 0 ≤ z := le_trans (by decide) (not_lt.mp h4)
  show (if ((JSNum.finite (z : ℚ)).remLit 4).strictNeZero = true then _ else _) = _
  rw [remLit_intCast z hz]
  by_cases hd : (4 : ℤ) ∣ z
  · rw [if_neg (not_not.mpr hd), decide_eq_false (not_not.mpr hd)]
    show Except.ok (rw ((JSNum.finite (z : ℚ)).divLit 4)) = _
    rw [divLit_intCast z hd]
  · rw [if_pos hd, decide_eq_true hd]; rfl

/-- Every value that is not an integer-valued Number is rejected. -/
theorem randomBytes_not_integer {α : Type} (rw : JSNum → α) (v : JSVal)
    (h : ¬ ∃ z : ℤ, v = .num (.finite z)) : ∃ e, randomBytes rw v = .error e := by
  unfold randomBytes
  by_cases ht : v.truthy = true
  · have hp : parseIntDiffers v = true := by
      cases v with
      | num n =>
        cases n with
        | finite q =>
          by_cases hq : q.isInt = true
          · obtain ⟨z, rfl⟩ := exists_int_of_isInt hq
            exact absurd ⟨z, rfl⟩ h
          · simp [parseIntDiffers, hq]
        | negZero => simp [JSVal.truthy] at ht
        | _ => rfl
      | _ => rfl
    simp [ht, hp]
  · simp [ht]

theorem intCast_val_inj (z w : ℤ) (h : JSVal.num (.finite (z : ℚ)) = .num (.finite (w : ℚ))) :
    z = w := by
  injection h with h
  injection h with h
  exact_mod_cast h

@[simp] theorem run_pure {α : Type} (a : α) (w : World) : (pure a : Eff α) w = .ok a w := rfl

@[simp] theorem run_bind {α β : Type} (m : Eff α) (f : α → Eff β) (w : World) :
    (m >>= f) w = match m w with
      | .ok a w1 => f a w1
      | .threw e w1 => .threw e w1 := rfl

@[simp] theorem run_emit (e : Event) (w : World) :
    emit e w = .ok () { w with trace := w.trace ++ [e] } := rfl

@[simp] theorem run_getClient (w : World) : getClient w = .ok w.client w := rfl

@[simp] theorem run_setClient (f : Client → Client) (w : World) :
    setClient f w = .ok () { w with client := f w.client } := rfl

@[simp] theorem run_attempt_ok {α : Type} (a : α) (w : World) :
    attempt (.ok a) w = .ok a w := rfl

@[simp] theorem run_attempt_error {α : Type} (e : Thrown) (w : World) :
    (attempt (.error e) : Eff α) w = .threw e w := rfl

theorem randomBytes_32 {α : Type} (rw : JSNum → α) :
    randomBytes rw (.num (.finite 32)) = .ok (rw (.finite 8)) := by
  have h := randomBytes_intCast rw 32
  rw [if_neg (by decide), if_neg (by decide), if_neg (by decide), if_neg (by decide)] at h
  have e1 : ((32 : ℤ) : ℚ) = 32 := by norm_num
  have e2 : (((32 : ℤ) / 4 : ℤ) : ℚ) = 8 := by norm_num
  rw [e1, e2] at h
  exact h

@[simp] theorem run_drawBytes_32 (env : Env) (i : Nat) (w : World) :
    drawBytes env i (.num (.finite 32)) w =
      .ok (env.randomWords i (.finite 8))
        { w with trace := w.trace ++ [.randomWords (.finite 8)] } := by
  simp [drawBytes, randomBytes_32]

@[simp] theorem run_hmac (env : Env) (key data : JSVal) (w : World) :
    hmac env key data w =
      .ok (env.hexFromBits (env.hmacMac key data))
        { w with trace := w.trace ++ [.hmac key data] } := rfl

theorem getProp_eq (v : JSVal) (k : String) :
    v.getProp k = if v.nullish then .error .typeError else .ok (v.field k) := by
  cases v <;> rfl

theorem run_ite {α : Type} (c : Prop) [Decidable c] (m1 m2 : Eff α) (w : World) :
    (if c then m1 else m2) w = if c then m1 w else m2 w := by
  split <;> rfl

theorem not_nullish_of_truthy {v : JSVal} (h : v.truthy = true) : v.nullish = false := by
  cases v <;> simp_all [JSVal.truthy, JSVal.nullish]

theorem orElse_not_nullish (v : JSVal) : (v.orElse (.obj .plain [])).nullish = false := by
  unfold JSVal.orElse
  split
  · exact not_nullish_of_truthy ‹_›
  · rfl

/-! ## Provisioning -/

set_option maxHeartbeats 1000000 in
/-- The run of `generateAccountAfterCheck` when no property read throws. -/
theorem generateAccountAfterCheck_eq (env : Env) (u p options save : JSVal) (w : World)
    (hu : u.truthy = true) (hp : p.truthy = true) (ho : options.nullish = false)
    (hk : (keypairOf env options).nullish = false)
    (hs : (signingKeysOf env).nullish = false)
    (h0 : (encryptedHmacKeyOf env u p options).nullish = false)
    (h1 : (encryptedContainerKeyOf env u p options).nullish = false) :
    generateAccountAfterCheck env u p options save w =
      if ((encryptedHmacKeyOf env u p options).field "error").truthy then
        .ok ⟨(encryptedHmacKeyOf env u p options).field "error", .null⟩
          { afterCollectors w with
            trace := (afterCollectors w).trace ++ traceBeforeHmac env u p options }
      else if ((encryptedContainerKeyOf env u p options).field "error").truthy then
        .ok ⟨(encryptedContainerKeyOf env u p options).field "error", .null⟩
          { afterCollectors w with
            trace := (afterCollectors w).trace ++ traceBeforeHmac env u p options ++
              [.encryptAndSign (env.stringify (draw env 4))] }
      else if save.truthy then
        .ok ⟨env.save (.obj .plain (builtAccount env u p options)),
            .account (.obj .plain (builtAccount env u p options))⟩
          { afterCollectors w with
            trace := (afterCollectors w).trace ++ traceBeforeHmac env u p options ++
              [.encryptAndSign (env.stringify (draw env 4))] ++
              traceOfWrapping env p options ++
              [.accountSave (.obj .plain (builtAccount env u p options))] }
      else
        .ok ⟨.null, .account (.obj .plain (builtAccount env u p options))⟩
          { afterCollectors w with
            trace := (afterCollectors w).trace ++ traceBeforeHmac env u p options ++
              [.encryptAndSign (env.stringify (draw env 4))] ++
              traceOfWrapping env p options } := by
  cases hc : w.client.collectorsStarted <;>
  simp only [afterCollectors, hc] <;>
  simp only [encryptedHmacKeyOf, encryptedContainerKeyOf, selfPeerFirst, selfPeerSecond,
    accountBeforeHmac, builtAccount, keypairOf, signingKeysOf, draw, paddedVerifier,
    keypairKeyOf, keypairPlainOf, signingPlainOf, traceBeforeHmac, traceOfWrapping,
    List.cons_append, List.nil_append, List.append_assoc] at hk hs h0 h1 ⊢ <;>
  simp only [generateAccountAfterCheck, hu, hp, Bool.not_true, Bool.not_false, Bool.or_self,
    Bool.false_eq_true, if_false, if_true, run_bind, run_getClient, run_pure, run_emit,
    run_drawBytes_32, run_hmac, run_ite, hc, startCollectors, run_setClient] <;>
  simp only [getProp_eq, ho, Bool.false_eq_true, if_false, run_attempt_ok] <;>
  simp only [hk, hs, Bool.false_eq_true, if_false, run_attempt_ok] <;>
  simp only [h0, Bool.false_eq_true, if_false, run_attempt_ok, if_true, run_emit,
    run_pure, run_bind] <;>
  simp only [h1, Bool.false_eq_true, if_false, run_attempt_ok, if_true, run_emit,
    run_pure, run_bind, hk, hs, run_hmac, List.cons_append, List.nil_append,
    List.append_assoc]

/-- The account of a complete run, field by field. -/
theorem builtAccount_eq (env : Env) (u p options : JSVal) :
    builtAccount env u p options =
      [("username", u),
       ("keypairSalt", env.stringify (draw env 1)),
       ("keypairMacSalt", env.stringify (draw env 2)),
       ("signKeyPrivateMacSalt", env.stringify (draw env 3)),
       ("srpVerifier", .str (paddedVerifier env u p)),
       ("srpSalt", env.srpRandomHexSalt u p),
       ("pubKey", env.stringify (env.serialize ((keypairOf env options).field "pub"))),
       ("signKeyPub", env.stringify (env.serialize ((signingKeysOf env).field "pub"))),
       ("signKeyPrivate", (signingKeysOf env).field "sec"),
       ("hmacKeyCiphertext", env.stringify (encryptedHmacKeyOf env u p options)),
       ("containerNameHmacKeyCiphertext",
          env.stringify (encryptedContainerKeyOf env u p options)),
       ("keypairCiphertext",
          env.encrypt 0 (keypairKeyOf env p) (keypairPlainOf env options)),
       ("keypairMac",
          env.hexFromBits (env.hmacMac (env.pbkdf2 p (draw env 2) MIN_PBKDF2_ROUNDS)
            (env.encrypt 0 (keypairKeyOf env p) (keypairPlainOf env options)))),
       ("signKeyPrivateCiphertext", env.encrypt 1 (keypairKeyOf env p) (signingPlainOf env)),
       ("signKeyPrivateMac",
          env.hexFromBits (env.hmacMac (env.pbkdf2 p (draw env 3) MIN_PBKDF2_ROUNDS)
            (env.encrypt 1 (keypairKeyOf env p) (signingPlainOf env))))] := rfl

/-! ## Calls made by a run -/

theorem Emits.pure {α : Type} {P : Event → Prop} (a : α) : Emits P (pure a : Eff α) :=
  fun w => ⟨[], by simp [Res.world], by simp⟩

theorem Emits.bind {α β : Type} {P : Event → Prop} {m : Eff α} {f : α → Eff β}
    (hm : Emits P m) (hf : ∀ a, Emits P (f a)) : Emits P (m >>= f) := by
  intro w
  obtain ⟨es, h1, h2⟩ := hm w
  rw [run_bind]
  cases hmw : m w with
  | ok a w1 =>
    rw [hmw] at h1
    obtain ⟨es2, h3, h4⟩ := hf a w1
    refine ⟨es ++ es2, ?_, ?_⟩
    · simp only [Res.world] at h1
      rw [h3, h1, List.append_assoc]
    · intro e he
      rcases List.mem_append.mp he with h | h
      · exact h2 e h
      · exact h4 e h
  | threw e w1 =>
    rw [hmw] at h1
    exact ⟨es, h1, h2⟩

theorem Emits.emit {P : Event → Prop} {e : Event} (h : P e) : Emits P (emit e) :=
  fun w => ⟨[e], rfl, by simpa using h⟩

theorem Emits.getClient {P : Event → Prop} : Emits P getClient :=
  fun w => ⟨[], by simp [Res.world], by simp⟩

theorem Emits.setClient {P : Event → Prop} (f : Client → Client) : Emits P (setClient f) :=
  fun w => ⟨[], by simp [Res.world], by simp⟩

theorem Emits.attempt {α : Type} {P : Event → Prop} (x : Except Thrown α) :
    Emits P (attempt x) := by
  intro w
  cases x <;> exact ⟨[], by simp [Res.world], by simp⟩

theorem Emits.ite {α : Type} {P : Event → Prop} {c : Prop} [Decidable c] {m1 m2 : Eff α}
    (h1 : Emits P m1) (h2 : Emits P m2) : Emits P (if c then m1 else m2) := by
  split
  · exact h1
  · exact h2

theorem Emits.of_drawBytes {P : Event → Prop} (env : Env) (i : Nat) (n : JSVal)
    (h : ∀ k, P (.randomWords k)) : Emits P (drawBytes env i n) := by
  unfold drawBytes
  exact Emits.bind (Emits.attempt _) (fun a => Emits.bind (Emits.emit (h _)) (fun _ => Emits.pure _))

theorem Emits.of_hmac {P : Event → Prop} (env : Env) (k d : JSVal)
    (h : P (.hmac k d)) : Emits P (hmac env k d) := by
  unfold hmac
  exact Emits.bind (Emits.emit h) (fun _ => Emits.pure _)

theorem generateAccountAfterCheck_no_versionCheck (env : Env) (u p options save : JSVal) :
    Emits (fun e => e.isVersionCheck = false) (generateAccountAfterCheck env u p options save) := by
  unfold generateAccountAfterCheck startCollectors
  repeat' first
    | exact Emits.pure _
    | exact Emits.getClient
    | exact Emits.setClient _
    | exact Emits.attempt _
    | exact Emits.of_drawBytes _ _ _ (fun _ => rfl)
    | exact Emits.of_hmac _ _ _ rfl
    | exact Emits.emit rfl
    | refine Emits.ite ?_ ?_
    | refine Emits.bind ?_ ?_
    | intro _
set_option maxHeartbeats 1000000 in
/-- A run of `generateAccountAfterCheck` that hands an account to the callback is a complete
run: the account is `builtAccount`, and no step threw or reported an error. -/
theorem generateAccountAfterCheck_account (env : Env) (u p options save : JSVal) (w w' : World)
    (err acct : JSVal) (ho : options.nullish = false)
    (h : generateAccountAfterCheck env u p options save w = .ok ⟨err, .account acct⟩ w') :
    acct = .obj .plain (builtAccount env u p options) ∧
    u.truthy = true ∧ p.truthy = true ∧
    w'.trace = (afterCollectors w).trace ++ traceBeforeHmac env u p options ++
      [.encryptAndSign (env.stringify (draw env 4))] ++ traceOfWrapping env p options ++
      (if save.truthy then [.accountSave (.obj .plain (builtAccount env u p options))]
       else []) ∧
    err = (if save.truthy then env.save (.obj .plain (builtAccount env u p options))
           else .null) := by
  by_cases hup : u.truthy = true ∧ p.truthy = true
  swap
  · exfalso
    have hc : (!u.truthy || !p.truthy) = true := by
      cases hu : u.truthy <;> cases hp : p.truthy <;> simp_all
    simp only [generateAccountAfterCheck, hc, if_true, run_pure, Res.ok.injEq, Callback.mk.injEq,
      reduceCtorEq, and_false, false_and] at h
  obtain ⟨hu, hp⟩ := hup
  cases hk : (keypairOf env options).nullish
  swap
  · exfalso
    simp only [keypairOf] at hk
    cases hc : w.client.collectorsStarted <;>
    simp only [generateAccountAfterCheck, hu, hp, Bool.not_true, Bool.not_false, Bool.or_self,
      Bool.false_eq_true, if_false, if_true, run_bind, run_getClient, run_pure, run_emit,
      run_drawBytes_32, run_hmac, run_ite, hc, startCollectors, run_setClient] at h <;>
    simp only [getProp_eq, ho, Bool.false_eq_true, if_false, run_attempt_ok, hk, if_true,
      run_attempt_error, reduceCtorEq] at h
  cases hs : (signingKeysOf env).nullish
  swap
  · exfalso
    simp only [keypairOf, signingKeysOf] at hk hs
    cases hc : w.client.collectorsStarted <;>
    simp only [generateAccountAfterCheck, hu, hp, Bool.not_true, Bool.not_false, Bool.or_self,
      Bool.false_eq_true, if_false, if_true, run_bind, run_getClient, run_pure, run_emit,
      run_drawBytes_32, run_hmac, run_ite, hc, startCollectors, run_setClient] at h <;>
    simp only [getProp_eq, ho, Bool.false_eq_true, if_false, run_attempt_ok, hk, hs, if_true,
      run_attempt_error, reduceCtorEq] at h
  cases h0 : (encryptedHmacKeyOf env u p options).nullish
  swap
  · exfalso
    simp only [encryptedHmacKeyOf, selfPeerFirst, accountBeforeHmac, keypairOf, signingKeysOf,
      draw, paddedVerifier] at hk hs h0
    cases hc : w.client.collectorsStarted <;>
    simp only [generateAccountAfterCheck, hu, hp, Bool.not_true, Bool.not_false, Bool.or_self,
      Bool.false_eq_true, if_false, if_true, run_bind, run_getClient, run_pure, run_emit,
      run_drawBytes_32, run_hmac, run_ite, hc, startCollectors, run_setClient] at h <;>
    simp only [getProp_eq, ho, Bool.false_eq_true, if_false, run_attempt_ok, hk, hs, if_true,
      run_attempt_error, reduceCtorEq] at h <;>
    simp only [h0, if_true, run_attempt_error, reduceCtorEq] at h
  by_cases e0 : ((encryptedHmacKeyOf env u p options).field "error").truthy = true
  · exfalso
    simp only [encryptedHmacKeyOf, selfPeerFirst, accountBeforeHmac, keypairOf, signingKeysOf,
      draw, paddedVerifier] at hk hs h0 e0
    cases hc : w.client.collectorsStarted <;>
    simp only [generateAccountAfterCheck, hu, hp, Bool.not_true, Bool.not_false, Bool.or_self,
      Bool.false_eq_true, if_false, if_true, run_bind, run_getClient, run_pure, run_emit,
      run_drawBytes_32, run_hmac, run_ite, hc, startCollectors, run_setClient] at h <;>
    simp only [getProp_eq, ho, Bool.false_eq_true, if_false, run_attempt_ok, hk, hs, if_true,
      run_attempt_error, reduceCtorEq] at h <;>
    simp only [h0, e0, Bool.false_eq_true, if_false, if_true, run_attempt_ok, Res.ok.injEq,
      Callback.mk.injEq, reduceCtorEq, and_false, false_and] at h
  cases h1 : (encryptedContainerKeyOf env u p options).nullish
  swap
  · exfalso
    simp only [encryptedHmacKeyOf, encryptedContainerKeyOf, selfPeerFirst, selfPeerSecond,
      accountBeforeHmac, keypairOf, signingKeysOf, draw, paddedVerifier] at hk hs h0 e0 h1
    cases hc : w.client.collectorsStarted <;>
    simp only [generateAccountAfterCheck, hu, hp, Bool.not_true, Bool.not_false, Bool.or_self,
      Bool.false_eq_true, if_false, if_true, run_bind, run_getClient, run_pure, run_emit,
      run_drawBytes_32, run_hmac, run_ite, hc, startCollectors, run_setClient] at h <;>
    simp only [getProp_eq, ho, Bool.false_eq_true, if_false, run_attempt_ok, hk, hs, if_true,
      run_attempt_error, reduceCtorEq] at h <;>
    simp only [h0, e0, Bool.false_eq_true, if_false, if_true, run_attempt_ok, run_bind,
      run_emit, run_pure] at h <;>
    simp only [h1, if_true, run_attempt_error, reduceCtorEq] at h
  rw [generateAccountAfterCheck_eq env u p options save w hu hp ho hk hs h0 h1, if_neg e0] at h
  by_cases e1 : ((encryptedContainerKeyOf env u p options).field "error").truthy = true
  · exfalso
    rw [if_pos e1] at h
    simp only [Res.ok.injEq, Callback.mk.injEq, reduceCtorEq, and_false, false_and] at h
  rw [if_neg e1] at h
  cases hsv : save.truthy
  · rw [hsv] at h
    simp only [Bool.false_eq_true, if_false, Res.ok.injEq, Callback.mk.injEq,
      Payload.account.injEq] at h
    obtain ⟨⟨herr, hacct⟩, hw⟩ := h
    subst hw
    simp [herr.symm, hacct.symm, hu, hp]
  · rw [hsv] at h
    simp only [if_true, Res.ok.injEq, Callback.mk.injEq, Payload.account.injEq] at h
    obtain ⟨⟨herr, hacct⟩, hw⟩ := h
    subst hw
    simp [herr.symm, hacct.symm, hu, hp]

/-! ## The version gate -/

/-- The run of `versionCheck`, case by case. -/
theorem run_versionCheck (env : Env) (skip : Bool) (w : World) :
    versionCheck env skip w =
      if skip then .ok .null w
      else if (env.http (.versionCheck w.client.sessionId)).nullish then
        .threw .typeError (afterVersionRequest w)
      else if ((env.http (.versionCheck w.client.sessionId)).field "success").isTrue then
        .ok .null (afterVersionRequest w)
      else if ((env.http (.versionCheck w.client.sessionId)).field "error").isDefined then
        .ok ((env.http (.versionCheck w.client.sessionId)).field "error")
          { afterVersionRequest w with
            client := { w.client with clientVersionMismatch := true } }
      else .ok .null (afterVersionRequest w) := by
  cases skip
  swap
  · rfl
  cases hb : (env.http (.versionCheck w.client.sessionId)).nullish <;>
  cases hs : ((env.http (.versionCheck w.client.sessionId)).field "success").isTrue <;>
  cases he : ((env.http (.versionCheck w.client.sessionId)).field "error").isDefined <;>
  simp only [versionCheck, Bool.false_eq_true, if_false, if_true, run_bind, run_getClient,
    run_emit, run_pure, getProp_eq, hb, hs, he, run_attempt_ok, run_attempt_error, run_ite,
    Bool.not_true, Bool.not_false, run_setClient, afterVersionRequest]

/-- The function `generateAccount` is its gate followed by the provisioning steps. -/
theorem generateAccount_eq (env : Env) (u p options : JSVal) (w : World) :
    generateAccount env u p options w =
      if w.client.clientVersionMismatch then .ok ⟨MISMATCH_ERR, .absent⟩ w
      else
        match versionCheck env (!(saveOf options).truthy) w with
        | .ok err w1 =>
          if err.truthy then .ok ⟨MISMATCH_ERR, .absent⟩ w1
          else
            generateAccountAfterCheck env u p (options.orElse (.obj .plain []))
              (saveOf options) w1
        | .threw e w1 => .threw e w1 := by
  have ho := orElse_not_nullish options
  cases hf : w.client.clientVersionMismatch <;>
  simp only [generateAccount, saveOf, run_bind, run_getClient, run_pure, hf, if_true, if_false,
    Bool.false_eq_true, getProp_eq, ho, run_attempt_ok, run_ite]
  cases versionCheck env _ w <;> rfl

theorem afterCollectors_trace (w : World) :
    (afterCollectors w).trace =
      w.trace ++ (if w.client.collectorsStarted then [] else [.startCollectors]) := by
  unfold afterCollectors
  cases w.client.collectorsStarted <;> simp

/-- A run of `generateAccount` that hands an account to the callback: the account, the calls
and the error. -/
theorem generateAccount_account (env : Env) (u p options : JSVal) (w w' : World)
    (err acct : JSVal)
    (h : generateAccount env u p options w = .ok ⟨err, .account acct⟩ w') :
    acct = .obj .plain (builtAccount env u p (options.orElse (.obj .plain []))) ∧
    u.truthy = true ∧ p.truthy = true ∧
    w'.trace = w.trace ++ gateTrace w (saveOf options) ++
      traceBeforeHmac env u p (options.orElse (.obj .plain [])) ++
      [.encryptAndSign (env.stringify (draw env 4))] ++
      traceOfWrapping env p (options.orElse (.obj .plain [])) ++
      (if (saveOf options).truthy then
        [.accountSave (.obj .plain (builtAccount env u p (options.orElse (.obj .plain []))))]
       else []) ∧
    err = (if (saveOf options).truthy then
        env.save (.obj .plain (builtAccount env u p (options.orElse (.obj .plain []))))
      else .null) := by
  rw [generateAccount_eq] at h
  cases hf : w.client.clientVersionMismatch
  swap
  · rw [hf] at h
    simp only [if_true, Res.ok.injEq, Callback.mk.injEq, reduceCtorEq, and_false,
      false_and] at h
  rw [hf] at h
  simp only [Bool.false_eq_true, if_false] at h
  rw [run_versionCheck] at h
  have reach : ∃ w1 : World, w1.client.collectorsStarted = w.client.collectorsStarted ∧
      w1.trace = w.trace ++
        (if (saveOf options).truthy then [.http (.versionCheck w.client.sessionId)] else []) ∧
      generateAccountAfterCheck env u p (options.orElse (.obj .plain [])) (saveOf options) w1 =
        .ok ⟨err, .account acct⟩ w' := by
    cases hsv : (saveOf options).truthy
    · rw [hsv] at h
      simp only [Bool.not_false, if_true, Bool.false_eq_true, if_false, JSVal.truthy] at h
      exact ⟨w, rfl, by simp, h⟩
    · rw [hsv] at h
      simp only [Bool.not_true, Bool.false_eq_true, if_false] at h
      cases hb : (env.http (.versionCheck w.client.sessionId)).nullish
      swap
      · rw [hb] at h
        simp only [if_true, reduceCtorEq] at h
      cases hs : ((env.http (.versionCheck w.client.sessionId)).field "success").isTrue
      swap
      · rw [hb, hs] at h
        simp only [Bool.false_eq_true, if_false, if_true, JSVal.truthy] at h
        refine ⟨_, ?_, ?_, h⟩ <;> simp [afterVersionRequest]
      cases he : ((env.http (.versionCheck w.client.sessionId)).field "error").isDefined
      · rw [hb, hs, he] at h
        simp only [Bool.false_eq_true, if_false, JSVal.truthy] at h
        refine ⟨_, ?_, ?_, h⟩ <;> simp [afterVersionRequest]
      · rw [hb, hs, he] at h
        simp only [Bool.false_eq_true, if_false, if_true] at h
        by_cases ht : ((env.http (.versionCheck w.client.sessionId)).field "error").truthy = true
        · rw [if_pos ht] at h
          simp only [Res.ok.injEq, Callback.mk.injEq, reduceCtorEq, and_false,
            false_and] at h
        · rw [if_neg ht] at h
          refine ⟨_, ?_, ?_, h⟩ <;> simp [afterVersionRequest]
  obtain ⟨w1, hcs, htr, hrun⟩ := reach
  obtain ⟨ha, hu, hp, ht, he⟩ := generateAccountAfterCheck_account env u p _ _ w1 w' err acct
    (orElse_not_nullish options) hrun
  refine ⟨ha, hu, hp, ?_, he⟩
  rw [ht, afterCollectors_trace, hcs, htr]
  simp only [gateTrace, List.append_assoc]

/-! ## Hexadecimal padding -/

theorem hexValue_append (s t : JSString) :
    hexValue (s ++ t) = t.foldl (fun acc c =>
      16 * acc +
        (if 48 ≤ c.val ∧ c.val < 58 then c.val - 48
         else if 97 ≤ c.val ∧ c.val < 103 then c.val - 87
         else 0)) (hexValue s) := by
  unfold hexValue
  rw [List.foldl_append]

theorem hexValue_zeros (n : Nat) : hexValue (List.replicate n (Fin.ofNat 48)) = 0 := by
  induction n with
  | zero => rfl
  | succ n ih =>
    rw [List.replicate_succ', hexValue_append, ih]
    rfl

theorem hexValue_zeros_append (n : Nat) (s : JSString) :
    hexValue (List.replicate n (Fin.ofNat 48) ++ s) = hexValue s := by
  rw [hexValue_append, hexValue_zeros]
  rfl

theorem hexValue_digits (l : List Nat) (h : ∀ d ∈ l, d < 16) :
    hexValue (l.reverse.map
      (fun d => if d < 10 then (Fin.ofNat (48 + d) : CodeUnit) else Fin.ofNat (87 + d))) =
      Nat.ofDigits 16 l := by
  induction l with
  | nil => rfl
  | cons d l ih =>
    have hd : d < 16 := h d (List.mem_cons_self _ _)
    have hl : ∀ x ∈ l, x < 16 := fun x hx => h x (List.mem_cons_of_mem _ hx)
    rw [List.reverse_cons, List.map_append, hexValue_append, ih hl, Nat.ofDigits_cons]
    simp only [List.map_cons, List.map_nil, List.foldl_cons, List.foldl_nil]
    have hval : ((if d < 10 then (Fin.ofNat (48 + d) : CodeUnit) else Fin.ofNat (87 + d)) :
        CodeUnit).val = if d < 10 then 48 + d else 87 + d := by
      split
      · show (48 + d) % 65536 = _
        omega
      · show (87 + d) % 65536 = _
        omega
    rw [hval]
    by_cases h10 : d < 10
    · rw [if_pos h10, if_pos (by omega)]
      omega
    · rw [if_neg h10, if_neg (by omega), if_pos (by omega)]
      omega

theorem hexValue_toHex (v : Nat) : hexValue (toHex v) = v := by
  unfold toHex
  split
  · subst_vars; rfl
  · rw [hexValue_digits _ (fun d hd => Nat.digits_lt_base (by norm_num) hd),
      Nat.ofDigits_digits]

theorem toHex_length_le (v : Nat) (h : v < 2 ^ 2048) : (toHex v).length ≤ 512 := by
  unfold toHex
  split
  · decide
  · rename_i hv
    rw [List.length_map, List.length_reverse]
    have h1 := Nat.base_pow_length_digits_le 16 v (by norm_num) hv
    have h2 : 16 * v < 16 ^ 513 := by
      have : (16 : ℕ) ^ 513 = 16 * 2 ^ 2048 := by norm_num
      omega
    have h3 : (16 : ℕ) ^ (Nat.digits 16 v).length < 16 ^ 513 := lt_of_le_of_lt h1 h2
    have h4 := (Nat.pow_lt_pow_iff_right (by norm_num : 1 < 16)).mp h3
    omega

/-- The padded verifier is 512 characters long, is the run of zeros followed by the
verifier, and denotes the verifier. -/
theorem paddedVerifier_spec (env : Env) (u p : JSVal)
    (h : env.srpCalculateV u p (env.srpRandomHexSalt u p) < 2 ^ 2048) :
    (paddedVerifier env u p).length = 512 ∧
    paddedVerifier env u p =
      List.replicate (512 - (toHex (env.srpCalculateV u p (env.srpRandomHexSalt u p))).length)
        (Fin.ofNat 48) ++ toHex (env.srpCalculateV u p (env.srpRandomHexSalt u p)) ∧
    hexValue (paddedVerifier env u p) = env.srpCalculateV u p (env.srpRandomHexSalt u p) := by
  have hlen := toHex_length_le _ h
  have hz : ((512 : Int) - ((toHex (env.srpCalculateV u p
      (env.srpRandomHexSalt u p))).length : Int)).toNat =
      512 - (toHex (env.srpCalculateV u p (env.srpRandomHexSalt u p))).length := by
    omega
  have heq : paddedVerifier env u p =
      List.replicate (512 - (toHex (env.srpCalculateV u p (env.srpRandomHexSalt u p))).length)
        (Fin.ofNat 48) ++ toHex (env.srpCalculateV u p (env.srpRandomHexSalt u p)) := by
    simp only [paddedVerifier, nZeros, hz]
  refine ⟨?_, heq, ?_⟩
  · rw [heq, List.length_append, List.length_replicate]
    omega
  · rw [heq, hexValue_zeros_append, hexValue_toHex]

/-! ## Complete provisioning runs -/

/-- A run of `generateAccount` in which the gate lets the call through and every
collaborator answers without an error. -/
theorem generateAccount_complete (env : Env) (u p options : JSVal) (w w1 : World) (v : JSVal)
    (hflag : w.client.clientVersionMismatch = false)
    (hvc : versionCheck env (!(saveOf options).truthy) w = .ok v w1)
    (hv : v.truthy = false)
    (hu : u.truthy = true) (hp : p.truthy = true)
    (hk : (keypairOf env (options.orElse (.obj .plain []))).nullish = false)
    (hs : (signingKeysOf env).nullish = false)
    (h0 : (encryptedHmacKeyOf env u p (options.orElse (.obj .plain []))).nullish = false)
    (e0 : ((encryptedHmacKeyOf env u p (options.orElse (.obj .plain []))).field
      "error").truthy = false)
    (h1 : (encryptedContainerKeyOf env u p (options.orElse (.obj .plain []))).nullish = false)
    (e1 : ((encryptedContainerKeyOf env u p (options.orElse (.obj .plain []))).field
      "error").truthy = false) :
    ∃ w', generateAccount env u p options w =
        .ok ⟨if (saveOf options).truthy then
              env.save (.obj .plain (builtAccount env u p (options.orElse (.obj .plain []))))
            else .null,
          .account (.obj .plain (builtAccount env u p (options.orElse (.obj .plain []))))⟩ w' ∧
      w'.client = (afterCollectors w1).client ∧
      w'.trace = (afterCollectors w1).trace ++
        traceBeforeHmac env u p (options.orElse (.obj .plain [])) ++
        [.encryptAndSign (env.stringify (draw env 4))] ++
        traceOfWrapping env p (options.orElse (.obj .plain [])) ++
        (if (saveOf options).truthy then
          [.accountSave
            (.obj .plain (builtAccount env u p (options.orElse (.obj .plain []))))]
         else []) := by
  rw [generateAccount_eq, hflag, hvc]
  simp only [Bool.false_eq_true, if_false, hv]
  rw [generateAccountAfterCheck_eq env u p _ _ w1 hu hp (orElse_not_nullish options) hk hs h0 h1,
    e0, e1]
  simp only [Bool.false_eq_true, if_false]
  cases (saveOf options).truthy
  · exact ⟨_, rfl, rfl, by simp⟩
  · exact ⟨_, rfl, rfl, by simp⟩

theorem encryptionKeys_append (a b : List Event) :
    encryptionKeys (a ++ b) = encryptionKeys a ++ encryptionKeys b := by
  induction a with
  | nil => rfl
  | cons e a ih =>
    cases e <;> simp [encryptionKeys, ih]

theorem field_of_save_false {options : JSVal} (h : options.field "save" = .bool false) :
    options.orElse (.obj .plain []) = options ∧ saveOf options = .bool false := by
  have hobj : options.truthy = true := by
    cases options <;> simp_all [JSVal.field, JSVal.truthy]
  have h1 : options.orElse (.obj .plain []) = options := by
    simp [JSVal.orElse, hobj]
  refine ⟨h1, ?_⟩
  simp [saveOf, h1, h, JSVal.isDefined]

/-- The sample offline provisioning run. -/
theorem sample_offline_run :
    ∃ w', generateAccount sampleEnv alice horse offlineOptions freshWorld =
      .ok ⟨.null, .account (.obj .plain (builtAccount sampleEnv alice horse offlineOptions))⟩
        w' ∧
      w'.trace = [.startCollectors] ++ traceBeforeHmac sampleEnv alice horse offlineOptions ++
        [.encryptAndSign (sampleEnv.stringify (draw sampleEnv 4))] ++
        traceOfWrapping sampleEnv horse offlineOptions := by
  obtain ⟨w', hrun, _, htr⟩ := generateAccount_complete sampleEnv alice horse offlineOptions
    freshWorld freshWorld .null rfl rfl rfl rfl rfl rfl rfl rfl rfl rfl rfl
  exact ⟨w', hrun, htr⟩

/-! ## C9: offline provisioning and the version gate -/

/-- C3 (amended): in every account `generateAccount` produces, each of the two MACs is
computed under a key derived from the passphrase and a salt of its own (`keypairMacSalt`,
`signKeyPrivateMacSalt`, two separate 32-byte draws), while the two private-key ciphertexts
`keypairCiphertext` and `signKeyPrivateCiphertext` are both encrypted under one key, the
key derived from `keypairSalt`; the two HMAC keys are protected by self-encryption. -/
theorem generateAccount_key_derivation (env : Env) (u p options : JSVal) (w w' : World)
    (err acct : JSVal)
    (hrun : generateAccount env u p options w = .ok ⟨err, .account acct⟩ w') :
    acct.field "keypairSalt" = env.stringify (env.randomWords 1 (.finite 8)) ∧
    acct.field "keypairMacSalt" = env.stringify (env.randomWords 2 (.finite 8)) ∧
    acct.field "signKeyPrivateMacSalt" = env.stringify (env.randomWords 3 (.finite 8)) ∧
    (∃ plaintext, acct.field "keypairCiphertext" =
      env.encrypt 0 (env.pbkdf2 p (env.randomWords 1 (.finite 8)) MIN_PBKDF2_ROUNDS)
        plaintext) ∧
    (∃ plaintext, acct.field "signKeyPrivateCiphertext" =
      env.encrypt 1 (env.pbkdf2 p (env.randomWords 1 (.finite 8)) MIN_PBKDF2_ROUNDS)
        plaintext) ∧
    acct.field "keypairMac" =
      env.hexFromBits
        (env.hmacMac (env.pbkdf2 p (env.randomWords 2 (.finite 8)) MIN_PBKDF2_ROUNDS)
          (acct.field "keypairCiphertext")) ∧
    acct.field "signKeyPrivateMac" =
      env.hexFromBits
        (env.hmacMac (env.pbkdf2 p (env.randomWords 3 (.finite 8)) MIN_PBKDF2_ROUNDS)
          (acct.field "signKeyPrivateCiphertext")) ∧
    encryptionKeys w'.trace = encryptionKeys w.trace ++
      [env.pbkdf2 p (env.randomWords 1 (.finite 8)) MIN_PBKDF2_ROUNDS,
       env.pbkdf2 p (env.randomWords 1 (.finite 8)) MIN_PBKDF2_ROUNDS] ∧
    (∃ peer, acct.field "hmacKeyCiphertext" =
      env.stringify
        (env.encryptAndSign 0 peer (env.stringify (env.randomWords 0 (.finite 8))))) ∧
    (∃ peer, acct.field "containerNameHmacKeyCiphertext" =
      env.stringify
        (env.encryptAndSign 1 peer (env.stringify (env.randomWords 4 (.finite 8))))) := by
  obtain ⟨ha, _, _, htr, _⟩ := generateAccount_account env u p options w w' err acct hrun
  subst ha
  rw [builtAccount_eq]
  refine ⟨rfl, rfl, rfl, ⟨keypairPlainOf env (options.orElse (.obj .plain [])), rfl⟩,
    ⟨signingPlainOf env, rfl⟩, rfl, rfl, ?_,
    ⟨selfPeerFirst env u p (options.orElse (.obj .plain [])), rfl⟩,
    ⟨selfPeerSecond env u p (options.orElse (.obj .plain [])), rfl⟩⟩
  rw [htr]
  simp only [encryptionKeys_append]
  have hgate : encryptionKeys (gateTrace w (saveOf options)) = [] := by
    unfold gateTrace
    cases (saveOf options).truthy <;> cases w.client.collectorsStarted <;> rfl
  have hsave : encryptionKeys (if (saveOf options).truthy = true then
      [Event.accountSave
        (.obj .plain (builtAccount env u p (options.orElse (.obj .plain []))))]
      else []) = [] := by
    cases (saveOf options).truthy <;> rfl
  rw [hgate, hsave]
  have h1 : encryptionKeys (traceBeforeHmac env u p (options.orElse (.obj .plain []))) = [] :=
    rfl
  have h2 : encryptionKeys [Event.encryptAndSign (env.stringify (draw env 4))] = [] := rfl
  have h3 : encryptionKeys (traceOfWrapping env p (options.orElse (.obj .plain []))) =
      [env.pbkdf2 p (env.randomWords 1 (.finite 8)) MIN_PBKDF2_ROUNDS,
       env.pbkdf2 p (env.randomWords 1 (.finite 8)) MIN_PBKDF2_ROUNDS] := rfl
  rw [h1, h2, h3]
  simp only [List.append_nil]

/-- Witness of C3 (amended): the sample offline provisioning. -/
theorem generateAccount_key_derivation_witness :
    ∃ w', generateAccount sampleEnv alice horse offlineOptions freshWorld =
        .ok ⟨.null, .account (.obj .plain (builtAccount sampleEnv alice horse offlineOptions))⟩
          w' ∧
      encryptionKeys w'.trace = encryptionKeys freshWorld.trace ++
        [sampleEnv.pbkdf2 horse (sampleEnv.randomWords 1 (.finite 8)) MIN_PBKDF2_ROUNDS,
         sampleEnv.pbkdf2 horse (sampleEnv.randomWords 1 (.finite 8)) MIN_PBKDF2_ROUNDS] := by
  obtain ⟨w', hrun, _⟩ := sample_offline_run
  exact ⟨w', hrun,
    (generateAccount_key_derivation sampleEnv alice horse offlineOptions freshWorld w' _ _
      hrun).2.2.2.2.2.2.2.1⟩

/-- C3, as stated, fails on the sample provisioning: the key that encrypts
`keypairCiphertext` is the key that encrypts `signKeyPrivateCiphertext`. -/
theorem generateAccount_shares_encryption_key :
    ∃ acct w' key, generateAccount sampleEnv alice horse offlineOptions freshWorld =
        .ok ⟨.null, .account acct⟩ w' ∧
      encryptionKeys w'.trace = [key, key] ∧
      acct.field "keypairCiphertext" = sampleEnv.encrypt 0 key (.str (js "elgamal-sec")) ∧
      acct.field "signKeyPrivateCiphertext" =
        sampleEnv.encrypt 1 key (.str (js "ecdsa-sec")) := by
  obtain ⟨w', hrun, htr⟩ := sample_offline_run
  refine ⟨_, w', sampleEnv.pbkdf2 horse (sampleEnv.randomWords 1 (.finite 8))
    MIN_PBKDF2_ROUNDS, hrun, ?_, ?_, ?_⟩
  · rw [htr]
    rfl
  · rw [builtAccount_eq]
    rfl
  · rw [builtAccount_eq]
    rfl

/-! ## C8: the padded verifier -/

/-- C8: in every account `generateAccount` produces, `srpVerifier` is 512 characters long and
is the hexadecimal verifier of the SRP engine (a value of the 2048-bit group, so below
`2 ^ 2048`) behind a run of `512 - len(v)` zeros; it denotes the verifier's value. -/
theorem generateAccount_srpVerifier_padded (env : Env) (u p options : JSVal) (w w' : World)
    (err acct : JSVal)
    (hgroup : env.srpCalculateV u p (env.srpRandomHexSalt u p) < 2 ^ 2048)
    (hrun : generateAccount env u p options w = .ok ⟨err, .account acct⟩ w') :
    ∃ s : JSString, acct.field "srpVerifier" = .str s ∧
      s.length = 512 ∧
      s = List.replicate
            (512 - (toHex (env.srpCalculateV u p (env.srpRandomHexSalt u p))).length)
            (Fin.ofNat 48) ++
          toHex (env.srpCalculateV u p (env.srpRandomHexSalt u p)) ∧
      hexValue s = env.srpCalculateV u p (env.srpRandomHexSalt u p) := by
  obtain ⟨ha, _, _, _, _⟩ := generateAccount_account env u p options w w' err acct hrun
  subst ha
  obtain ⟨h1, h2, h3⟩ := paddedVerifier_spec env u p hgroup
  refine ⟨paddedVerifier env u p, ?_, h1, h2, h3⟩
  rw [builtAccount_eq]
  rfl

/-- Witness of C8: the sample provisioning, whose verifier is `0xbeef`. -/
theorem generateAccount_srpVerifier_padded_witness :
    sampleEnv.srpCalculateV alice horse (sampleEnv.srpRandomHexSalt alice horse) < 2 ^ 2048 ∧
    ∃ s : JSString,
      (JSVal.obj .plain (builtAccount sampleEnv alice horse offlineOptions)).field
        "srpVerifier" = .str s ∧
      s.length = 512 ∧ hexValue s = 48879 := by
  obtain ⟨w', hrun, _⟩ := sample_offline_run
  have hgroup : sampleEnv.srpCalculateV alice horse (sampleEnv.srpRandomHexSalt alice horse) <
      2 ^ 2048 := by
    show 48879 < 2 ^ 2048
    norm_num
  obtain ⟨s, hs, hlen, _, hval⟩ := generateAccount_srpVerifier_padded sampleEnv alice horse
    offlineOptions freshWorld w' _ _ hgroup hrun
  exact ⟨hgroup, s, hs, hlen, hval⟩

/-! ## The version gate in front of both entry points -/

/-- The function `authorize` is its gate followed by the login steps. -/
theorem authorize_eq (env : Env) (u p options : JSVal) (w : World) :
    authorize env u p options w =
      if w.client.clientVersionMismatch then .ok ⟨MISMATCH_ERR, .absent⟩ w
      else
        match versionCheck env (!(checkOf w.client.online options).truthy) w with
        | .ok err w1 =>
          if err.truthy then .ok ⟨MISMATCH_ERR, .absent⟩ w1
          else authorizeAfterCheck env u p w1
        | .threw e w1 => .threw e w1 := by
  have ho := orElse_not_nullish options
  cases hf : w.client.clientVersionMismatch <;> cases hon : w.client.online <;>
  simp only [authorize, checkOf, run_bind, run_getClient, run_pure, hf, hon, if_true, if_false,
    Bool.false_eq_true, getProp_eq, ho, run_attempt_ok, run_ite, Bool.not_true,
    Bool.not_false] <;>
  cases versionCheck env _ w <;> rfl

theorem isDefined_of_truthy {v : JSVal} (h : v.truthy = true) : v.isDefined = true := by
  cases v <;> simp_all [JSVal.truthy, JSVal.isDefined]

/-- A version-check response that reports a mismatch with a truthy error stops both entry
points: the callback receives the version-mismatch error, the flag is set, and the request
to the version-check endpoint is the only call made. -/
theorem version_gate_blocks_truthy_error (env : Env) (u p options : JSVal) (w : World)
    (hflag : w.client.clientVersionMismatch = false)
    (hbody : (env.http (.versionCheck w.client.sessionId)).nullish = false)
    (hsuccess : ((env.http (.versionCheck w.client.sessionId)).field "success").isTrue = false)
    (herror : ((env.http (.versionCheck w.client.sessionId)).field "error").truthy = true) :
    ((saveOf options).truthy = true →
      generateAccount env u p options w =
        .ok ⟨MISMATCH_ERR, .absent⟩
          { client := { w.client with clientVersionMismatch := true }
            trace := w.trace ++ [.http (.versionCheck w.client.sessionId)] }) ∧
    ((checkOf w.client.online options).truthy = true →
      authorize env u p options w =
        .ok ⟨MISMATCH_ERR, .absent⟩
          { client := { w.client with clientVersionMismatch := true }
            trace := w.trace ++ [.http (.versionCheck w.client.sessionId)] }) := by
  have hdef := isDefined_of_truthy herror
  have hvc : versionCheck env false w =
      .ok ((env.http (.versionCheck w.client.sessionId)).field "error")
        { client := { w.client with clientVersionMismatch := true }
          trace := w.trace ++ [.http (.versionCheck w.client.sessionId)] } := by
    rw [run_versionCheck, hbody, hsuccess, hdef]
    rfl
  constructor
  · intro hsave
    rw [generateAccount_eq, hflag, hsave]
    simp only [Bool.false_eq_true, if_false, Bool.not_true, hvc, herror, if_true]
  · intro hcheck
    rw [authorize_eq, hflag, hcheck]
    simp only [Bool.false_eq_true, if_false, Bool.not_true, hvc, herror, if_true]

/-! ## C5: the version gate and a falsy error -/

/-- C5, evaluated: the version check answers `{success: false, error: ""}`.  `versionCheck`
sets `clientVersionMismatch` and passes the empty string on; both callers test it for
truthiness and go on: `generateAccount` derives the keys from the passphrase and saves the
account, `authorize` computes SRP `A` from the credentials, posts it and logs in. -/
theorem version_gate_passes_empty_error :
    (∃ w', generateAccount emptyErrorEnv alice horse .undefined freshWorld =
        .ok ⟨.null,
          .account (.obj .plain (builtAccount emptyErrorEnv alice horse (.obj .plain [])))⟩ w' ∧
      w'.client.clientVersionMismatch = true ∧
      Event.pbkdf2 horse (draw emptyErrorEnv 1) MIN_PBKDF2_ROUNDS ∈ w'.trace ∧
      Event.accountSave
        (.obj .plain (builtAccount emptyErrorEnv alice horse (.obj .plain []))) ∈ w'.trace) ∧
    (∃ s w', authorize emptyErrorEnv alice horse .undefined freshWorld =
        .ok ⟨.null, .session s⟩ w' ∧
      w'.client.clientVersionMismatch = true ∧
      Event.calculateSrpA (credentials alice horse) ∈ w'.trace ∧
      Event.http (challengeRequest alice
        (emptyErrorEnv.calculateSrpA (credentials alice horse)).2) ∈ w'.trace) := by
  constructor
  · obtain ⟨w', hrun, hcl, htr⟩ := generateAccount_complete emptyErrorEnv alice horse .undefined
      freshWorld
      { client := { freshWorld.client with clientVersionMismatch := true }
        trace := [.http (.versionCheck .null)] }
      (.str []) rfl rfl rfl rfl rfl rfl rfl rfl rfl rfl rfl
    refine ⟨w', hrun, ?_, ?_, ?_⟩
    · rw [hcl]; rfl
    · rw [htr]
      simp [traceBeforeHmac]
    · rw [htr]
      have : (saveOf JSVal.undefined).truthy = true := rfl
      simp [this]
      right; right; right; rfl
  · refine ⟨_, _, rfl, rfl, ?_, ?_⟩
    · exact List.mem_cons_of_mem _ (List.mem_cons_of_mem _ (List.mem_cons_self _ _))
    · exact List.mem_cons_of_mem _ (List.mem_cons_of_mem _ (List.mem_cons_of_mem _
        (List.mem_cons_self _ _)))

/-! ## Login runs -/

theorem copyFields_eq (src : JSVal) (h : src.nullish = false) (ks : List String) :
    ∀ t, copyFields src ks t = .ok (ks.foldl (fun t k => JSVal.update k (src.field k) t) t) := by
  induction ks with
  | nil => intro t; rfl
  | cons k ks ih =>
    intro t
    simp only [copyFields, getProp_eq, h, Bool.false_eq_true, if_false, List.foldl_cons]
    exact ih _

theorem run_makeSession (sid account : JSVal) (h : account.nullish = false) (w : World) :
    makeSession sid account w =
      .ok ⟨sid, sessionAccountOf account⟩
        { client := { w.client with sessionId := sid }
          trace := w.trace ++ [.makeSession sid account] } := by
  simp only [makeSession, run_bind, run_emit, run_setClient, run_getClient, run_pure,
    copyFields_eq account h, run_attempt_ok, sessionAccountOf]

theorem run_makeSession_nullish (sid account : JSVal) (h : account.nullish = true)
    (w : World) :
    makeSession sid account w =
      .threw .typeError
        { client := { w.client with sessionId := sid }
          trace := w.trace ++ [.makeSession sid account] } := by
  simp only [makeSession, run_bind, run_emit, run_setClient, run_getClient, run_pure,
    sessionAccountFields, copyFields, getProp_eq, h, if_true, run_attempt_error]

theorem responseFailed_eq_false {body : JSVal} (h : responseFailed body = .ok false) :
    body.truthy = true ∧ body.nullish = false ∧ (body.field "success").isTrue = true := by
  unfold responseFailed at h
  cases ht : body.truthy
  · simp [ht] at h
  · have hn := not_nullish_of_truthy ht
    simp only [ht, Bool.not_true, Bool.false_eq_true, if_false, getProp_eq, hn] at h
    refine ⟨rfl, hn, ?_⟩
    cases hs : (body.field "success").isTrue
    · simp [hs] at h
    · rfl

theorem setProp_obj (cls : ObjClass) (props : List (String × JSVal)) (k : String) (x : JSVal) :
    (JSVal.obj cls props).setProp k x = .ok ((JSVal.obj cls props).assign k x) := rfl

theorem assign_obj (cls : ObjClass) (props : List (String × JSVal)) (k : String) (x : JSVal) :
    (JSVal.obj cls props).assign k x = .obj cls (JSVal.update k x props) := rfl

theorem deleteProp_obj (cls : ObjClass) (props : List (String × JSVal)) (k : String) :
    (JSVal.obj cls props).deleteProp k = .ok ((JSVal.obj cls props).remove k) := rfl

theorem remove_obj (cls : ObjClass) (props : List (String × JSVal)) (k : String) :
    (JSVal.obj cls props).remove k = .obj cls (props.filter (fun q => q.1 ≠ k)) := rfl

/-- The run of `login` up to the comparison of the proofs, when both responses are
successful and the proofs do not match. -/
theorem login_rejected (env : Env) (u p data : JSVal) (cls : ObjClass)
    (props : List (String × JSVal)) (w : World)
    (hd : data.nullish = false)
    (h1 : responseFailed (env.http (challengeRequest u data)) = .ok false)
    (h2 : responseFailed (env.http (answerRequest env u data (.obj cls props))) = .ok false)
    (hc : constEqual ((env.http (answerRequest env u data (.obj cls props))).field "srpM2")
      (expectedM2 env u data (.obj cls props)) = false) :
    login env u p data (.obj cls props) w =
      .ok ⟨.str (js "Server could not be verified"), .absent⟩
        { client := { w.client with
            sessionId := (env.http (challengeRequest u data)).field "sid" }
          trace := w.trace ++
            [.http (challengeRequest u data),
             .calculateSrpM1 (exchangeOptions (.obj cls props) data
               (env.http (challengeRequest u data))),
             .http (answerRequest env u data (.obj cls props))] } := by
  obtain ⟨_, hn1, _⟩ := responseFailed_eq_false h1
  obtain ⟨_, hn2, _⟩ := responseFailed_eq_false h2
  simp only [challengeRequest, answerRequest, expectedM2, exchangeOptions, assign_obj]
    at h1 h2 hn1 hn2 hc ⊢
  simp only [login, run_bind, run_emit, run_pure, run_getClient, run_setClient, run_ite]
  simp only [getProp_eq, hd, Bool.false_eq_true, if_false, run_attempt_ok]
  simp only [h1, run_attempt_ok, Bool.false_eq_true, if_false]
  simp only [hn1, Bool.false_eq_true, if_false, run_attempt_ok, setProp_obj, assign_obj]
  simp only [h2, run_attempt_ok, Bool.false_eq_true, if_false]
  simp only [hn2, Bool.false_eq_true, if_false, run_attempt_ok, hc, Bool.not_false, if_true,
    List.append_assoc, List.cons_append, List.nil_append]

/-- The run of `login` when both responses are successful, the proofs match and the answer
carries an account: the session cache is written, then the account is unravelled. -/
theorem login_accepted (env : Env) (u p data : JSVal) (cls : ObjClass)
    (props : List (String × JSVal)) (w : World)
    (hd : data.nullish = false)
    (h1 : responseFailed (env.http (challengeRequest u data)) = .ok false)
    (h2 : responseFailed (env.http (answerRequest env u data (.obj cls props))) = .ok false)
    (hc : constEqual ((env.http (answerRequest env u data (.obj cls props))).field "srpM2")
      (expectedM2 env u data (.obj cls props)) = true)
    (ha : ((env.http (answerRequest env u data (.obj cls props))).field "account").nullish =
      false) :
    ∃ r, login env u p data (.obj cls props) w = r ∧
      r.world.client.sessionStorage = some (env.stringify
        (cacheSnapshot ((env.http (challengeRequest u data)).field "sid")
          (sessionAccountOf
            ((env.http (answerRequest env u data (.obj cls props))).field "account"))
          (((exchangeOptions (.obj cls props) data
            (env.http (challengeRequest u data))).remove "username").remove "passphrase")
          ((env.http (answerRequest env u data (.obj cls props))).field "srpM2"))) ∧
      (∃ rest, r.world.trace = w.trace ++
        [.http (challengeRequest u data),
         .calculateSrpM1 (exchangeOptions (.obj cls props) data
           (env.http (challengeRequest u data))),
         .http (answerRequest env u data (.obj cls props)),
         .makeSession ((env.http (challengeRequest u data)).field "sid")
           ((env.http (answerRequest env u data (.obj cls props))).field "account"),
         .setItem "crypton" (env.stringify
          (cacheSnapshot ((env.http (challengeRequest u data)).field "sid")
            (sessionAccountOf
              ((env.http (answerRequest env u data (.obj cls props))).field "account"))
            (((exchangeOptions (.obj cls props) data
              (env.http (challengeRequest u data))).remove "username").remove "passphrase")
            ((env.http (answerRequest env u data (.obj cls props))).field "srpM2")))] ++
        rest) := by
  obtain ⟨_, hn1, _⟩ := responseFailed_eq_false h1
  obtain ⟨_, hn2, _⟩ := responseFailed_eq_false h2
  refine ⟨_, rfl, ?_⟩
  simp only [challengeRequest, answerRequest, expectedM2, exchangeOptions, assign_obj,
    remove_obj, cacheSnapshot] at h1 h2 hn1 hn2 hc ha ⊢
  simp only [login, run_bind, run_emit, run_pure, run_getClient, run_setClient, run_ite]
  simp only [getProp_eq, hd, Bool.false_eq_true, if_false, run_attempt_ok]
  simp only [h1, run_attempt_ok, Bool.false_eq_true, if_false]
  simp only [hn1, Bool.false_eq_true, if_false, run_attempt_ok, setProp_obj, assign_obj]
  simp only [h2, run_attempt_ok, Bool.false_eq_true, if_false]
  simp only [hn2, Bool.false_eq_true, if_false, run_attempt_ok, hc, Bool.not_true]
  simp only [run_makeSession _ _ ha, deleteProp_obj, remove_obj, run_attempt_ok]
  split
  · refine ⟨rfl, ?_⟩
    simp only [List.append_assoc, List.cons_append, List.nil_append, Res.world]
    exact ⟨_, rfl⟩
  · split
    · refine ⟨rfl, ?_⟩
      simp only [List.append_assoc, List.cons_append, List.nil_append, Res.world]
      exact ⟨_, rfl⟩
    · refine ⟨rfl, ?_⟩
      simp only [List.append_assoc, List.cons_append, List.nil_append, Res.world]
      exact ⟨_, rfl⟩

theorem stripped_credentials (u p data challenge : JSVal) :
    ((exchangeOptions (credentials u p) data challenge).remove "username").remove "passphrase" =
      .obj .plain
        [("a", data.field "a"), ("srpA", data.field "srpA"),
         ("srpB", challenge.field "srpB"), ("srpSalt", challenge.field "srpSalt")] := rfl

theorem sessionAccountOf_keys (received : JSVal) :
    (sessionAccountOf received).keys = sessionAccountFields := rfl

/-- The comparator rejects two values that differ, and a value that is not a string. -/
theorem constEqual_eq_false {a b : JSVal} (ha : a.Storable) (hb : b.Storable)
    (h : a ≠ b ∨ a.isString = false) : constEqual a b = false := by
  cases hc : constEqual a b with
  | false => rfl
  | true =>
    obtain ⟨s, rfl, rfl⟩ := (constEqual_str_or a b ha hb).mp hc
    rcases h with h | h
    · exact absurd rfl h
    · cases h

/-! ## C2: a forged server proof -/

/-- C10: the snapshot a successful `login` writes to the session cache holds the session id,
the thirteen account fields received from the server, the four exchange values and the
server proof, and neither a `username` nor a `passphrase` property, in the options or in
the account; a second login, with any other username and passphrase, that receives the same
server values and SRP values writes the same text. -/
theorem login_cache_free_of_credentials (env : Env) (u1 p1 u2 p2 data : JSVal) (w : World)
    (hd : data.nullish = false)
    (h1 : responseFailed (env.http (challengeRequest u1 data)) = .ok false)
    (h2 : responseFailed (env.http (answerRequest env u1 data (credentials u1 p1))) =
      .ok false)
    (hc : constEqual ((env.http (answerRequest env u1 data (credentials u1 p1))).field "srpM2")
      (expectedM2 env u1 data (credentials u1 p1)) = true)
    (ha : ((env.http (answerRequest env u1 data (credentials u1 p1))).field "account").nullish =
      false)
    (hsame1 : env.http (challengeRequest u2 data) = env.http (challengeRequest u1 data))
    (hsame2 : env.http (answerRequest env u2 data (credentials u2 p2)) =
      env.http (answerRequest env u1 data (credentials u1 p1)))
    (hsameM : expectedM2 env u2 data (credentials u2 p2) =
      expectedM2 env u1 data (credentials u1 p1)) :
    (login env u1 p1 data (credentials u1 p1) w).world.client.sessionStorage =
      some (env.stringify
        (cacheSnapshot ((env.http (challengeRequest u1 data)).field "sid")
          (sessionAccountOf
            ((env.http (answerRequest env u1 data (credentials u1 p1))).field "account"))
          (.obj .plain
            [("a", data.field "a"), ("srpA", data.field "srpA"),
             ("srpB", (env.http (challengeRequest u1 data)).field "srpB"),
             ("srpSalt", (env.http (challengeRequest u1 data)).field "srpSalt")])
          ((env.http (answerRequest env u1 data (credentials u1 p1))).field "srpM2"))) ∧
    (login env u2 p2 data (credentials u2 p2) w).world.client.sessionStorage =
      (login env u1 p1 data (credentials u1 p1) w).world.client.sessionStorage ∧
    (sessionAccountOf
      ((env.http (answerRequest env u1 data (credentials u1 p1))).field "account")).keys =
      sessionAccountFields ∧
    "username" ∉ sessionAccountFields ∧ "passphrase" ∉ sessionAccountFields := by
  obtain ⟨r1, hr1, hst1, _⟩ := login_accepted env u1 p1 data .plain
    [("username", u1), ("passphrase", p1)] w hd h1 h2 hc ha
  have h1' : responseFailed (env.http (challengeRequest u2 data)) = .ok false := by
    rw [hsame1]; exact h1
  have h2' : responseFailed (env.http (answerRequest env u2 data (credentials u2 p2))) =
      .ok false := by
    rw [hsame2]; exact h2
  have hc' : constEqual
      ((env.http (answerRequest env u2 data (credentials u2 p2))).field "srpM2")
      (expectedM2 env u2 data (credentials u2 p2)) = true := by
    rw [hsame2, hsameM]; exact hc
  have ha' : ((env.http (answerRequest env u2 data (credentials u2 p2))).field
      "account").nullish = false := by
    rw [hsame2]; exact ha
  obtain ⟨r2, hr2, hst2, _⟩ := login_accepted env u2 p2 data .plain
    [("username", u2), ("passphrase", p2)] w hd h1' h2' hc' ha'
  have e1 : login env u1 p1 data (credentials u1 p1) w = r1 := hr1
  have e2 : login env u2 p2 data (credentials u2 p2) w = r2 := hr2
  have s1 := stripped_credentials u1 p1 data (env.http (challengeRequest u1 data))
  have s2 := stripped_credentials u2 p2 data (env.http (challengeRequest u2 data))
  unfold credentials at s1 s2 hsame2
  rw [s1] at hst1
  rw [s2, hsame1, hsame2] at hst2
  rw [e1, e2, hst1, hst2]
  exact ⟨rfl, rfl, rfl, by decide, by decide⟩

/-- Witness of C10: two sample logins with different passphrases. -/
theorem login_cache_free_of_credentials_witness :
    (login sampleEnv alice staple (sampleEnv.calculateSrpA (credentials alice staple)).2
        (credentials alice staple) freshWorld).world.client.sessionStorage =
      (login sampleEnv alice horse (sampleEnv.calculateSrpA (credentials alice horse)).2
        (credentials alice horse) freshWorld).world.client.sessionStorage :=
  (login_cache_free_of_credentials sampleEnv alice horse alice staple
    (sampleEnv.calculateSrpA (credentials alice horse)).2 freshWorld rfl rfl rfl
    (by decide) rfl rfl rfl rfl).2.1

/-! ## Offline login runs -/

theorem obj_of_field_not_nullish {v : JSVal} {k : String} (h : (v.field k).nullish = false) :
    v.nullish = false ∧ v.isNull = false := by
  cases v <;> simp_all [JSVal.field, JSVal.nullish, JSVal.isNull]

/-- The run of `loginWithStorage` on a cached snapshot whose stored proof does not match the
recomputed one. -/
theorem loginWithStorage_rejected (env : Env) (u p data options text parsed : JSVal)
    (cls : ObjClass) (props : List (String × JSVal)) (w : World)
    (hstore : w.client.sessionStorage = some text)
    (hparse : env.parse text = .ok parsed)
    (hacct : ((parsed.field "Session").field "account").nullish = false)
    (hopts : (parsed.field "Session").field "options" = .obj cls props)
    (hc : constEqual ((parsed.field "Session").field "srpM2")
      (env.calculateSrpM1 (replayOptions (.obj cls props) u p)).2.2 = false) :
    loginWithStorage env u p data options w =
      .ok ⟨.str (js "Server could not be verified"), .absent⟩
        { client := { w.client with sessionId := (parsed.field "Session").field "sessionId" }
          trace := w.trace ++
            [.getItem "crypton",
             .makeSession ((parsed.field "Session").field "sessionId")
               ((parsed.field "Session").field "account"),
             .calculateSrpM1 (replayOptions (.obj cls props) u p)] } := by
  obtain ⟨hsn, hsnull⟩ := obj_of_field_not_nullish hacct
  obtain ⟨hpn, _⟩ := obj_of_field_not_nullish hsn
  simp only [replayOptions, assign_obj] at hc ⊢
  simp only [loginWithStorage, run_bind, run_emit, run_pure, run_getClient, run_setClient,
    run_ite]
  simp only [hstore, hparse, run_attempt_ok]
  simp only [getProp_eq, hpn, Bool.false_eq_true, if_false, run_attempt_ok]
  simp only [hsnull, hsn, Bool.false_eq_true, if_false, run_attempt_ok]
  simp only [run_makeSession _ _ hacct, hopts, setProp_obj, assign_obj, run_attempt_ok]
  simp only [hc, Bool.not_false, if_true, List.append_assoc, List.cons_append,
    List.nil_append, hstore]

/-! ## C6: a corrupted cached proof -/

/-- C6: in `loginWithStorage`, for every cached snapshot (a session with an account and an
options object) whose stored `srpM2` differs from the proof recomputed from the cached
options and the supplied username and passphrase, or is not a string, the callback
receives `Server could not be verified` and no session, and `unravel` is not called; in
every run on such a snapshot `unravel` is called only when the comparison has succeeded. -/
theorem loginWithStorage_rejects_corrupted_proof (env : Env)
    (u p data options text parsed : JSVal) (cls : ObjClass) (props : List (String × JSVal))
    (w : World)
    (hstore : w.client.sessionStorage = some text)
    (hparse : env.parse text = .ok parsed)
    (hacct : ((parsed.field "Session").field "account").nullish = false)
    (hopts : (parsed.field "Session").field "options" = .obj cls props)
    (hs1 : ((parsed.field "Session").field "srpM2").Storable)
    (hs2 : (env.calculateSrpM1 (replayOptions (.obj cls props) u p)).2.2.Storable) :
    (((parsed.field "Session").field "srpM2" ≠
        (env.calculateSrpM1 (replayOptions (.obj cls props) u p)).2.2 ∨
      ((parsed.field "Session").field "srpM2").isString = false) →
      ∃ w' es, loginWithStorage env u p data options w =
          .ok ⟨.str (js "Server could not be verified"), .absent⟩ w' ∧
        w'.trace = w.trace ++ es ∧ ∀ e ∈ es, ∀ a, e ≠ .unravel a) ∧
    (∀ es a, (loginWithStorage env u p data options w).world.trace = w.trace ++ es →
      Event.unravel a ∈ es →
      constEqual ((parsed.field "Session").field "srpM2")
        (env.calculateSrpM1 (replayOptions (.obj cls props) u p)).2.2 = true) := by
  have rejected : constEqual ((parsed.field "Session").field "srpM2")
      (env.calculateSrpM1 (replayOptions (.obj cls props) u p)).2.2 = false →
      ∃ w' es, loginWithStorage env u p data options w =
          .ok ⟨.str (js "Server could not be verified"), .absent⟩ w' ∧
        w'.trace = w.trace ++ es ∧ ∀ e ∈ es, ∀ a, e ≠ .unravel a := by
    intro hc
    refine ⟨_, _, loginWithStorage_rejected env u p data options text parsed cls props w
      hstore hparse hacct hopts hc, rfl, ?_⟩
    intro e he a
    simp only [List.mem_cons, List.mem_singleton, List.not_mem_nil, or_false] at he
    rcases he with rfl | rfl | rfl <;> exact fun h => Event.noConfusion h
  refine ⟨fun hdiff => rejected (constEqual_eq_false hs1 hs2 hdiff), ?_⟩
  intro es a htr hmem
  cases hc : constEqual ((parsed.field "Session").field "srpM2")
      (env.calculateSrpM1 (replayOptions (.obj cls props) u p)).2.2 with
  | true => rfl
  | false =>
    exfalso
    obtain ⟨w', es', hrun, htr', hall⟩ := rejected hc
    rw [hrun] at htr
    simp only [Res.world] at htr
    rw [htr'] at htr
    have := List.append_cancel_left htr
    subst this
    exact hall _ hmem a rfl

/-- Witness of C6: a cached snapshot whose stored proof was corrupted. -/
theorem loginWithStorage_rejects_corrupted_proof_witness :
    ∃ w', loginWithStorage sampleEnv alice horse .undefined .undefined
        (cachedWorld (.str (js "4d3f"))) =
      .ok ⟨.str (js "Server could not be verified"), .absent⟩ w' ∧
      w'.trace = (cachedWorld (.str (js "4d3f"))).trace ++
        [.getItem "crypton",
         .makeSession (.str (js "sid-1")) (.obj .plain [("pubKey", .str (js "pk"))]),
         .calculateSrpM1 (.obj .plain
          [("a", .str (js "a0")), ("srpA", .str (js "a1")), ("username", alice),
           ("passphrase", horse)])] := by
  obtain ⟨w', es, hrun, htr, _⟩ :=
    (loginWithStorage_rejects_corrupted_proof sampleEnv alice horse .undefined .undefined
      (snapshotWith (.str (js "4d3f"))) (snapshotWith (.str (js "4d3f"))) .plain
      [("a", .str (js "a0")), ("srpA", .str (js "a1"))] (cachedWorld (.str (js "4d3f")))
      rfl rfl rfl rfl
      (by show (js "4d3f").length < 2 ^ 32; decide)
      (by show (js "4d32").length < 2 ^ 32; decide)).1
      (Or.inl (by
        show JSVal.str (js "4d3f") ≠ JSVal.str (js "4d32")
        intro h
        injection h with h
        revert h
        decide))
  refine ⟨w', hrun, ?_⟩
  have hrun' : loginWithStorage sampleEnv alice horse .undefined .undefined
      (cachedWorld (.str (js "4d3f"))) = .ok ⟨.str (js "Server could not be verified"), .absent⟩
        { client := { (cachedWorld (.str (js "4d3f"))).client with
            sessionId := .str (js "sid-1") }
          trace := (cachedWorld (.str (js "4d3f"))).trace ++
            [.getItem "crypton",
             .makeSession (.str (js "sid-1")) (.obj .plain [("pubKey", .str (js "pk"))]),
             .calculateSrpM1 (.obj .plain
              [("a", .str (js "a0")), ("srpA", .str (js "a1")), ("username", alice),
               ("passphrase", horse)])] } := rfl
  rw [hrun'] at hrun
  injection hrun with _ hw
  rw [← hw]

/-! ## C7: an absent cached snapshot -/

/-- C7, evaluated: with no `crypton` item in the session cache, `loginWithStorage` throws a
`TypeError` at `.Session` of `null`, before its test for an absent snapshot, and the callback
is never invoked; with an item that has no `Session`, it throws at `.sessionId` of
`undefined`, the test `sessionData === null` being false; an offline `authorize` with an
empty cache ends in the same exception. -/
theorem loginWithStorage_absent_snapshot_throws (env : Env) (u p data options : JSVal)
    (c : Client) (tr : List Event) :
    loginWithStorage env u p data options ⟨{ c with sessionStorage := none }, tr⟩ =
      .threw .typeError ⟨{ c with sessionStorage := none }, tr ++ [.getItem "crypton"]⟩ ∧
    loginWithStorage sampleEnv u p data options
        ⟨{ c with sessionStorage := some (.obj .plain [("containers", .obj .plain [])]) }, tr⟩ =
      .threw .typeError
        ⟨{ c with sessionStorage := some (.obj .plain [("containers", .obj .plain [])]) },
          tr ++ [.getItem "crypton"]⟩ ∧
    authorize sampleEnv alice horse .undefined ⟨{ online := false }, []⟩ =
      .threw .typeError
        ⟨{ online := false, collectorsStarted := true },
          [.startCollectors, .calculateSrpA (credentials alice horse), .getItem "crypton"]⟩ :=
  ⟨rfl, rfl, rfl⟩

end Crypton
